import Mathlib

/-!
Verification of the clauderc repository: stack detector (`src/detector.js`,
shipped in the sources as `src/unnamed/part_000`), stack tables
(`src/stacks.js`) and the manifest-driven global installer (`bin/cli.js`).

The JavaScript code is shallowly embedded: JS objects become Lean
structures, `null`/`undefined` become `Option`, JS falsiness of strings
(`''` is falsy) is modelled explicitly, and filesystem access is modelled
by oracles (`Except Unit` results for the throwing primitives).
-/

namespace Clauderc

/-- JS `a || d` for a possibly-absent string `a` (`undefined`, `null` and
`''` are falsy; every other string is truthy). -/
def jsOr (a : Option String) (d : String) : String :=
  match a with
  | some s => if s = "" then d else s
  | none => d

/-- Truthiness of a possibly-absent string: `undefined`/`null`/`''` are
falsy. -/
def jsTruthy (a : Option String) : Bool :=
  match a with
  | some s => s ≠ ""
  | none => false

/-!
The string primitives below are implemented by structural recursion over
the character list of a `String` (rather than through the built-in
position-based `String` functions) so that every definition in this file
reduces inside the kernel on concrete inputs.
-/

/-- Characters of `s`, split at every non-overlapping occurrence of the
non-empty pattern `pat`, left to right (JS `String.prototype.split`).
`fuel` is an upper bound on the recursion depth. -/
def jsSplitAux (pat : List Char) : Nat → List Char → List Char → List (List Char)
  | _, [], acc => [acc.reverse]
  | 0, s, acc => [acc.reverse ++ s]
  | fuel + 1, c :: rest, acc =>
    if pat.isPrefixOf (c :: rest) then
      acc.reverse :: jsSplitAux pat fuel (List.drop pat.length (c :: rest)) []
    else jsSplitAux pat fuel rest (c :: acc)

/-- JS `s.split(pat)` for a non-empty plain-string pattern. -/
def jsSplitOn (s pat : String) : List String :=
  (jsSplitAux pat.data (s.data.length + 1) s.data []).map String.mk

/-- `List.intercalate` for strings, by plain appends. -/
def strIntercalate (sep : String) : List String → String
  | [] => ""
  | x :: xs => xs.foldl (fun acc y => acc ++ sep ++ y) x

/-- JS `s.startsWith(t)`. -/
def strStartsWith (s t : String) : Bool := t.data.isPrefixOf s.data

/-- JS `s.endsWith(t)`. -/
def strEndsWith (s t : String) : Bool := t.data.isSuffixOf s.data

/-- Does `s` contain the character `c`? -/
def strContainsChar (s : String) (c : Char) : Bool := s.data.contains c

/-- JS `String.prototype.includes`: substring containment. -/
def jsIncludes (s pat : String) : Bool :=
  s.data.tails.any (fun t => pat.data.isPrefixOf t)

/-- JS `String.prototype.replace` with a plain-string pattern: replaces the
first occurrence only. -/
def jsReplaceFirst (s pat rep : String) : String :=
  match jsSplitOn s pat with
  | [] => s
  | [_] => s
  | x :: y :: rest => x ++ rep ++ strIntercalate pat (y :: rest)

/-- Merged lookup modelling `{ ...a, ...b }[k]` for two JS objects given as
association lists: keys of `b` override keys of `a`. -/
def jsMergedLookup (a b : List (String × String)) (k : String) : Option String :=
  match b.lookup k with
  | some v => some v
  | none => a.lookup k

section VersionCompare

/-!
`bin/cli.js`, `isNewer` (lines 119-126):

```
function isNewer(v1, v2) {
  const parse = (v) => (v || '0.0.0').split('.').map(Number);
  const [a1, b1, c1] = parse(v1);
  const [a2, b2, c2] = parse(v2);
  if (a1 !== a2) return a1 > a2;
  if (b1 !== b2) return b1 > b2;
  return c1 > c2;
}
```

A component is `Option Nat` inside an outer `Option`:
`none` is JS `undefined` (destructuring past the end of the array),
`some none` is `NaN` (a non-numeric component string), and
`some (some n)` is the number `n`.
-/

/-- Decimal value of a digit list. -/
def digitsVal (l : List Char) : Nat :=
  l.foldl (fun acc c => acc * 10 + (c.toNat - 48)) 0

/-- JS `Number()` on a version-component string: `Number('') = 0`, a
string of decimal digits parses to its value, anything else is `NaN`
(`none`). -/
def jsNumber (s : String) : Option Nat :=
  if s = "" then some 0
  else if s.data.all Char.isDigit then some (digitsVal s.data)
  else none

/-- `(v || '0.0.0').split('.').map(Number)`. -/
def versionComponents (v : String) : List (Option Nat) :=
  (jsSplitOn (if v = "" then "0.0.0" else v) ".").map jsNumber

/-- The `i`-th destructured component: `none` = `undefined`. -/
def versionComp (v : String) (i : Nat) : Option (Option Nat) :=
  (versionComponents v).get? i

/-- JS `x !== y` on version components: `undefined !== undefined` is
false, `NaN !== NaN` is true, numbers compare by value, and mixed kinds
are unequal. -/
def jsStrictNeq (x y : Option (Option Nat)) : Bool :=
  match x, y with
  | none, none => false
  | some none, _ => true
  | _, some none => true
  | some (some a), some (some b) => a ≠ b
  | none, some (some _) => true
  | some (some _), none => true

/-- JS `x > y` on version components: any comparison involving
`undefined` or `NaN` is false. -/
def jsGt (x y : Option (Option Nat)) : Bool :=
  match x, y with
  | some (some a), some (some b) => decide (a > b)
  | _, _ => false

/-- `isNewer` on pre-parsed component lists. -/
def isNewerL (p1 p2 : List (Option Nat)) : Bool :=
  if jsStrictNeq (p1.get? 0) (p2.get? 0) then jsGt (p1.get? 0) (p2.get? 0)
  else if jsStrictNeq (p1.get? 1) (p2.get? 1) then jsGt (p1.get? 1) (p2.get? 1)
  else jsGt (p1.get? 2) (p2.get? 2)

/-- `bin/cli.js` `isNewer`. -/
def isNewer (v1 v2 : String) : Bool :=
  isNewerL (versionComponents v1) (versionComponents v2)

/-- `isNewer(pkg.files[f]?.version, ...)` where either side may be
`undefined`: `(undefined || '0.0.0')` behaves exactly like
`('' || '0.0.0')`. -/
def isNewerOpt (v1 v2 : Option String) : Bool :=
  isNewer (v1.getD "") (v2.getD "")

end VersionCompare

section StacksTable

/-! `src/stacks.js`: the static stack / monorepo / CI lookup tables,
restricted to the fields the detector and command generator read. -/

/-- Stack identifiers: exactly the keys of `STACKS` in `src/stacks.js`. -/
inductive StackId where
  | node | python | go | rust | java | php | ruby | dotnet | elixir | swift | dart
deriving DecidableEq, Repr

/-- A package-manager config entry (`lockfile`/`detect`, `install`, `run`). -/
structure PMConfig where
  lockfile : Option String := none
  detect : Option String := none
  install : String
  run : String
deriving DecidableEq, Repr

/-- `STACKS.node.packageManagers`, in declaration order. -/
def nodePackageManagers : List (String × PMConfig) :=
  [("bun", { lockfile := some "bun.lockb", install := "bun install", run := "bun run" }),
   ("pnpm", { lockfile := some "pnpm-lock.yaml", install := "pnpm install", run := "pnpm run" }),
   ("yarn", { lockfile := some "yarn.lock", install := "yarn install", run := "yarn" }),
   ("npm", { lockfile := some "package-lock.json", install := "npm install", run := "npm run" })]

/-- `STACKS.python.packageManagers`, in declaration order. -/
def pythonPackageManagers : List (String × PMConfig) :=
  [("poetry", { lockfile := some "poetry.lock", install := "poetry install", run := "poetry run" }),
   ("pipenv", { lockfile := some "Pipfile.lock", install := "pipenv install", run := "pipenv run" }),
   ("uv", { lockfile := some "uv.lock", install := "uv sync", run := "uv run" }),
   ("pip", { lockfile := some "requirements.txt", install := "pip install -r requirements.txt", run := "" })]

/-- `STACKS.java.packageManagers.*`. -/
def javaMaven : PMConfig := { detect := some "pom.xml", install := "mvn install", run := "mvn" }
def javaGradle : PMConfig := { detect := some "build.gradle", install := "gradle build", run := "gradle" }
def javaGradleKts : PMConfig := { detect := some "build.gradle.kts", install := "gradle build", run := "gradle" }

/-- A framework config entry (`detect` marker plus optional commands). -/
structure FwConfig where
  detect : String
  dev : Option String := none
  build : Option String := none
  test : Option String := none
  deps : Option String := none
deriving DecidableEq, Repr

/-- `STACKS.node.frameworks`, in declaration order. -/
def nodeFrameworks : List (String × FwConfig) :=
  [("next", { detect := "next", dev := some "next dev", build := some "next build" }),
   ("nuxt", { detect := "nuxt", dev := some "nuxt dev", build := some "nuxt build" }),
   ("remix", { detect := "@remix-run", dev := some "remix dev", build := some "remix build" }),
   ("astro", { detect := "astro", dev := some "astro dev", build := some "astro build" }),
   ("vite", { detect := "vite", dev := some "vite", build := some "vite build" }),
   ("express", { detect := "express", dev := some "node src/index.js" }),
   ("fastify", { detect := "fastify", dev := some "node src/index.js" }),
   ("nestjs", { detect := "@nestjs/core", dev := some "nest start --watch", build := some "nest build" })]

/-- `STACKS.python.frameworks`, in declaration order. -/
def pythonFrameworks : List (String × FwConfig) :=
  [("django", { detect := "django", dev := some "python manage.py runserver", test := some "python manage.py test" }),
   ("fastapi", { detect := "fastapi", dev := some "uvicorn app.main:app --reload" }),
   ("flask", { detect := "flask", dev := some "flask run --reload" }),
   ("pytorch", { detect := "torch" }),
   ("tensorflow", { detect := "tensorflow" })]

/-- `STACKS.ruby.frameworks`, in declaration order. -/
def rubyFrameworks : List (String × FwConfig) :=
  [("rails", { detect := "rails", dev := some "rails server", test := some "rails test" }),
   ("sinatra", { detect := "sinatra" })]

/-- `STACKS.php.frameworks`, in declaration order. -/
def phpFrameworks : List (String × FwConfig) :=
  [("laravel", { detect := "laravel/framework", dev := some "php artisan serve", test := some "php artisan test" }),
   ("symfony", { detect := "symfony/framework-bundle", dev := some "symfony server:start" }),
   ("wordpress", { detect := "wordpress" })]

/-- One entry of the top-level `STACKS` table: id, display name, and the
`detect` file list. -/
structure StackDef where
  id : StackId
  name : String
  detect : List String
deriving DecidableEq, Repr

/-- The `STACKS` table, in declaration order. -/
def STACKS : List StackDef :=
  [⟨.node, "Node.js", ["package.json"]⟩,
   ⟨.python, "Python", ["pyproject.toml", "requirements.txt", "setup.py", "Pipfile"]⟩,
   ⟨.go, "Go", ["go.mod"]⟩,
   ⟨.rust, "Rust", ["Cargo.toml"]⟩,
   ⟨.java, "Java/Kotlin", ["pom.xml", "build.gradle", "build.gradle.kts"]⟩,
   ⟨.php, "PHP", ["composer.json"]⟩,
   ⟨.ruby, "Ruby", ["Gemfile"]⟩,
   ⟨.dotnet, ".NET/C#", ["*.csproj", "*.sln", "*.fsproj"]⟩,
   ⟨.elixir, "Elixir", ["mix.exs"]⟩,
   ⟨.swift, "Swift", ["Package.swift", "*.xcodeproj", "*.xcworkspace"]⟩,
   ⟨.dart, "Dart/Flutter", ["pubspec.yaml"]⟩]

/-- One entry of `MONOREPO_TOOLS`: name, `detect` file, optional `run`. -/
structure MonoCfg where
  name : String
  detect : String
  run : Option String := none
deriving DecidableEq, Repr

/-- `MONOREPO_TOOLS`, in declaration order. The `yarnWorkspaces` entry is
special-cased inside `detectMonorepo`. -/
def MONOREPO_TOOLS : List MonoCfg :=
  [⟨"turborepo", "turbo.json", some "turbo run"⟩,
   ⟨"nx", "nx.json", some "nx run"⟩,
   ⟨"lerna", "lerna.json", some "lerna run"⟩,
   ⟨"rush", "rush.json", some "rush"⟩,
   ⟨"pnpmWorkspace", "pnpm-workspace.yaml", none⟩,
   ⟨"yarnWorkspaces", "package.json", none⟩]

/-- `CI_PLATFORMS`, in declaration order: (name, detect path). -/
def CI_PLATFORMS : List (String × String) :=
  [("github", ".github/workflows"),
   ("gitlab", ".gitlab-ci.yml"),
   ("circleci", ".circleci"),
   ("jenkins", "Jenkinsfile"),
   ("travis", ".travis.yml"),
   ("azure", "azure-pipelines.yml"),
   ("bitbucket", "bitbucket-pipelines.yml")]

end StacksTable

section Detector

/-! `src/detector.js` (`src/unnamed/part_000`): filesystem model, the safe
read helpers (lines 382-406), the per-stack resolution helpers and
`detectStack` / `generateCommands`. -/

/-- The parsed-JSON shape the detector reads out of `package.json` /
`composer.json`: each JS object field is an association list (JS objects
have unique keys), `workspaces` is an optional JSON array. Absent fields
default to the empty object, matching the `{ ...undefined }` spreads. -/
structure JObj where
  dependencies : List (String × String) := []
  devDependencies : List (String × String) := []
  workspaces : Option (List String) := none
  require : List (String × String) := []
  requireDev : List (String × String) := []
deriving DecidableEq, Repr

/-- Filesystem oracle for one project directory. Filenames are relative
to the project path (the code always reads `join(projectPath, f)`).
`fexists` is `existsSync` (never throws); `readdir` is
`readdirSync(projectPath)` and `readFile` is `readFileSync`, both of
which may throw (`Except.error`); `parseJSON` is `JSON.parse` on a file's
content, which may throw on malformed input. -/
structure DFS where
  fexists : String → Bool
  readdir : Except Unit (List String)
  readFile : String → Except Unit String
  parseJSON : String → Except Unit JObj

/-- `safeReadDir`: a directory-listing failure returns an empty listing. -/
def safeReadDir (fs : DFS) : List String :=
  match fs.readdir with
  | .ok l => l
  | .error _ => []

/-- `safeReadFile`: a read failure returns `null`. -/
def safeReadFile (fs : DFS) (p : String) : Option String :=
  match fs.readFile p with
  | .ok c => some c
  | .error _ => none

/-- `safeParseJSON`: unreadable file or falsy content returns `null`; a
`JSON.parse` failure returns `null`. -/
def safeParseJSON (fs : DFS) (p : String) : Option JObj :=
  match safeReadFile fs p with
  | none => none
  | some c =>
    if c = "" then none
    else
      match fs.parseJSON c with
      | .ok o => some o
      | .error _ => none

/-- A resolved package manager: `{ name, ...config }`. -/
structure PM where
  name : String
  lockfile : Option String := none
  detect : Option String := none
  install : String
  run : String
deriving DecidableEq, Repr

/-- A resolved framework: `{ name, ...config }`. -/
structure Framework where
  name : String
  detect : String
  dev : Option String := none
  build : Option String := none
  test : Option String := none
  deps : Option String := none
deriving DecidableEq, Repr

/-- `detectNodePackageManager`: first lockfile found in table order wins;
else `npm` if `package.json` exists; else `null`. -/
def detectNodePackageManager (fs : DFS) : Option PM :=
  match nodePackageManagers.find? (fun pc => (pc.2.lockfile.map fs.fexists).getD false) with
  | some (n, cfg) => some { name := n, lockfile := cfg.lockfile, detect := cfg.detect,
                            install := cfg.install, run := cfg.run }
  | none =>
    if fs.fexists "package.json" then
      some { name := "npm", lockfile := some "package-lock.json",
             install := "npm install", run := "npm run" }
    else none

/-- Build a `Framework` from a table entry. -/
def mkFramework (n : String) (cfg : FwConfig) : Framework :=
  { name := n, detect := cfg.detect, dev := cfg.dev, build := cfg.build,
    test := cfg.test, deps := cfg.deps }

/-- `detectNodeFramework`: first framework whose `detect` dependency is a
truthy key of `{ ...dependencies, ...devDependencies }`. -/
def detectNodeFramework (fs : DFS) : Option Framework :=
  match safeParseJSON fs "package.json" with
  | none => none
  | some pkg =>
    let deps := jsMergedLookup pkg.dependencies pkg.devDependencies
    (nodeFrameworks.find? (fun fc => jsTruthy (deps fc.2.detect))).map
      (fun fc => mkFramework fc.1 fc.2)

/-- Result of `detectNodeTools` (an empty JS object when `package.json`
is unreadable; fields only assigned by the precedence chains). -/
structure NodeTools where
  test : Option String := none
  linter : Option String := none
  formatter : Option String := none
  typechecker : Option String := none
deriving DecidableEq, Repr

/-- `detectNodeTools`: fixed precedence chains over the merged
dependency set. -/
def detectNodeTools (fs : DFS) : NodeTools :=
  match safeParseJSON fs "package.json" with
  | none => {}
  | some pkg =>
    let deps := jsMergedLookup pkg.dependencies pkg.devDependencies
    let t : Option String :=
      if jsTruthy (deps "vitest") then some "vitest"
      else if jsTruthy (deps "jest") then some "jest"
      else if jsTruthy (deps "mocha") then some "mocha"
      else if jsTruthy (deps "ava") then some "ava"
      else if jsTruthy (deps "playwright") then some "playwright"
      else if jsTruthy (deps "cypress") then some "cypress"
      else none
    let l : Option String :=
      if jsTruthy (deps "@biomejs/biome") || jsTruthy (deps "biome") then some "biome"
      else if jsTruthy (deps "eslint") then some "eslint"
      else if jsTruthy (deps "oxlint") then some "oxlint"
      else none
    let f : Option String :=
      if jsTruthy (deps "@biomejs/biome") || jsTruthy (deps "biome") then some "biome"
      else if jsTruthy (deps "prettier") then some "prettier"
      else if jsTruthy (deps "dprint") then some "dprint"
      else none
    let tc : Option String := if jsTruthy (deps "typescript") then some "tsc" else none
    { test := t, linter := l, formatter := f, typechecker := tc }

/-- `detectPythonPackageManager`: lockfile table order, then the
`[tool.poetry]` marker in `pyproject.toml`, then `requirements.txt`. -/
def detectPythonPackageManager (fs : DFS) : Option PM :=
  match pythonPackageManagers.find? (fun pc => (pc.2.lockfile.map fs.fexists).getD false) with
  | some (n, cfg) => some { name := n, lockfile := cfg.lockfile, detect := cfg.detect,
                            install := cfg.install, run := cfg.run }
  | none =>
    let pyproject := safeReadFile fs "pyproject.toml"
    if (pyproject.map (fun c => jsIncludes c "[tool.poetry]")).getD false then
      some { name := "poetry", lockfile := some "poetry.lock",
             install := "poetry install", run := "poetry run" }
    else if fs.fexists "requirements.txt" then
      some { name := "pip", lockfile := some "requirements.txt",
             install := "pip install -r requirements.txt", run := "" }
    else none

/-- `detectPythonFramework`: substring search over the concatenation of
`pyproject.toml` and `requirements.txt` contents. -/
def detectPythonFramework (fs : DFS) : Option Framework :=
  let pyproject := safeReadFile fs "pyproject.toml"
  let requirements := safeReadFile fs "requirements.txt"
  let content := (pyproject.getD "") ++ (requirements.getD "")
  (pythonFrameworks.find? (fun fc => jsIncludes content fc.2.detect)).map
    (fun fc => mkFramework fc.1 fc.2)

/-- `detectJavaPackageManager`: fixed three-way file check. -/
def detectJavaPackageManager (fs : DFS) : Option PM :=
  if fs.fexists "pom.xml" then
    some { name := "maven", detect := javaMaven.detect, install := javaMaven.install,
           run := javaMaven.run }
  else if fs.fexists "build.gradle.kts" then
    some { name := "gradle-kts", detect := javaGradleKts.detect,
           install := javaGradleKts.install, run := javaGradleKts.run }
  else if fs.fexists "build.gradle" then
    some { name := "gradle", detect := javaGradle.detect, install := javaGradle.install,
           run := javaGradle.run }
  else none

/-- `detectRubyFramework`: substring search in the `Gemfile`. -/
def detectRubyFramework (fs : DFS) : Option Framework :=
  match safeReadFile fs "Gemfile" with
  | none => none
  | some gemfile =>
    (rubyFrameworks.find? (fun fc => jsIncludes gemfile fc.2.detect)).map
      (fun fc => mkFramework fc.1 fc.2)

/-- `detectPHPFramework`: dependency-key lookup in
`{ ...require, ...require-dev }` of `composer.json`. -/
def detectPHPFramework (fs : DFS) : Option Framework :=
  match safeParseJSON fs "composer.json" with
  | none => none
  | some composer =>
    let deps := jsMergedLookup composer.require composer.requireDev
    (phpFrameworks.find? (fun fc => jsTruthy (deps fc.2.detect))).map
      (fun fc => mkFramework fc.1 fc.2)

/-- A matched monorepo tool: `{ name, ...config }`. -/
structure Monorepo where
  name : String
  detect : String
  run : Option String := none
deriving DecidableEq, Repr

/-- `detectMonorepo` over the tool table: first entry whose `detect` file
exists wins, except that `yarnWorkspaces` additionally requires a parsed
`package.json` with a truthy `workspaces` field (`continue` otherwise). -/
def detectMonorepoAux (fs : DFS) : List MonoCfg → Option Monorepo
  | [] => none
  | t :: rest =>
    if fs.fexists t.detect then
      if t.name = "yarnWorkspaces" then
        match safeParseJSON fs "package.json" with
        | some pkg =>
          if pkg.workspaces.isSome then some ⟨t.name, t.detect, t.run⟩
          else detectMonorepoAux fs rest
        | none => detectMonorepoAux fs rest
      else some ⟨t.name, t.detect, t.run⟩
    else detectMonorepoAux fs rest

/-- `detectMonorepo`. -/
def detectMonorepo (fs : DFS) : Option Monorepo :=
  detectMonorepoAux fs MONOREPO_TOOLS

/-- A matched CI platform: `{ name, detect }`. -/
structure CI where
  name : String
  detect : String
deriving DecidableEq, Repr

/-- `detectCI`: first platform whose detect path exists. -/
def detectCI (fs : DFS) : Option CI :=
  (CI_PLATFORMS.find? (fun pc => fs.fexists pc.2)).map (fun pc => ⟨pc.1, pc.2⟩)

/-- `detectFile.replace('*', '')`: drop the first `*`. -/
def globPattern (d : String) : String :=
  match jsSplitOn d "*" with
  | [] => d
  | [x] => x
  | x :: y :: rest => x ++ strIntercalate "*" (y :: rest)

/-- One stack's detection loop: a glob pattern matches when some listed
file ends with the de-starred pattern, a plain name by `existsSync`. -/
def stackMatched (fs : DFS) (sd : StackDef) : Bool :=
  sd.detect.any (fun f =>
    if strContainsChar f '*' then
      (safeReadDir fs).any (fun file => strEndsWith file (globPattern f))
    else fs.fexists f)

/-- The detection result record built by `detectStack`. The JS field
`stacks` is called `stackList` here (`stacks` is a reserved token in
this Lean environment). -/
structure DetectionResult where
  stackList : List StackDef := []
  packageManager : Option PM := none
  framework : Option Framework := none
  monorepo : Option Monorepo := none
  ci : Option CI := none
  testFramework : Option String := none
  linter : Option String := none
  formatter : Option String := none
  typechecker : Option String := none
deriving DecidableEq, Repr

/-- `detectStack`: match stacks in table order, then run the per-stack
resolutions in source order (node, python, java, ruby, php — later
blocks overwrite the shared `packageManager` / `framework` fields), then
monorepo and CI detection. -/
def detectStack (fs : DFS) : DetectionResult :=
  let matched := STACKS.filter (stackMatched fs)
  let r0 : DetectionResult := { stackList := matched }
  let r1 :=
    if matched.any (fun s => s.id = .node) then
      let tools := detectNodeTools fs
      { r0 with packageManager := detectNodePackageManager fs,
                framework := detectNodeFramework fs,
                testFramework := tools.test, linter := tools.linter,
                formatter := tools.formatter, typechecker := tools.typechecker }
    else r0
  let r2 :=
    if matched.any (fun s => s.id = .python) then
      { r1 with packageManager := detectPythonPackageManager fs,
                framework := detectPythonFramework fs }
    else r1
  let r3 :=
    if matched.any (fun s => s.id = .java) then
      { r2 with packageManager := detectJavaPackageManager fs }
    else r2
  let r4 :=
    if matched.any (fun s => s.id = .ruby) then
      { r3 with framework := detectRubyFramework fs }
    else r3
  let r5 :=
    if matched.any (fun s => s.id = .php) then
      { r4 with framework := detectPHPFramework fs }
    else r4
  { r5 with monorepo := detectMonorepo fs, ci := detectCI fs }

end Detector

section CommandGenerator

/-- The `CommandSet` record: eight nullable command strings. -/
structure CommandSet where
  setup : Option String := none
  dev : Option String := none
  test : Option String := none
  lint : Option String := none
  format : Option String := none
  typecheck : Option String := none
  build : Option String := none
  verify : Option String := none
deriving DecidableEq, Repr

/-- `[commands.lint, commands.test, commands.build].filter(Boolean)`:
drops `null` and the falsy empty string. -/
def jsFilterBoolean (l : List (Option String)) : List String :=
  l.filterMap (fun o =>
    match o with
    | some s => if s = "" then none else some s
    | none => none)

/-- The `switch (stack.id)` body of `generateCommands` (everything
before the `verify` computation). -/
def generateCommandsSwitch (detection : DetectionResult) (id : StackId) : CommandSet :=
  let pm := detection.packageManager
  match id with
  | .node =>
    let run := jsOr (pm.map PM.run) "npm run"
    { setup := some (jsOr (pm.map PM.install) "npm install"),
      dev := some (run ++ " dev"), test := some (run ++ " test"),
      lint := some (run ++ " lint"), format := some (run ++ " format"),
      typecheck := some (run ++ " typecheck"), build := some (run ++ " build") }
  | .python =>
    let run := jsOr (pm.map PM.run) ""
    let pfx := if run = "" then "" else run ++ " "
    { setup := some (jsOr (pm.map PM.install) "pip install -r requirements.txt"),
      dev := some (jsOr (detection.framework.bind Framework.dev) (pfx ++ "python -m app")),
      test := some (pfx ++ "pytest"), lint := some (pfx ++ "ruff check ."),
      format := some (pfx ++ "ruff format ."), typecheck := some (pfx ++ "mypy .") }
  | .go =>
    { setup := some "go mod download", dev := some "go run .",
      test := some "go test ./...", lint := some "golangci-lint run",
      format := some "gofmt -w .", build := some "go build ./..." }
  | .rust =>
    { setup := some "cargo build", dev := some "cargo run",
      test := some "cargo test", lint := some "cargo clippy",
      format := some "cargo fmt", build := some "cargo build --release" }
  | .java =>
    let isMaven := pm.any (fun p => p.name = "maven")
    { setup := some (if isMaven then "mvn install -DskipTests" else "gradle build -x test"),
      dev := some (if isMaven then "mvn spring-boot:run" else "gradle bootRun"),
      test := some (if isMaven then "mvn test" else "gradle test"),
      lint := some (if isMaven then "mvn checkstyle:check" else "gradle checkstyleMain"),
      build := some (if isMaven then "mvn package" else "gradle build") }
  | .php =>
    { setup := some "composer install", test := some "vendor/bin/phpunit",
      lint := some "vendor/bin/phpcs", format := some "vendor/bin/php-cs-fixer fix",
      dev := some (jsOr (detection.framework.bind Framework.dev) "php -S localhost:8000") }
  | .ruby =>
    { setup := some "bundle install", test := some "bundle exec rspec",
      lint := some "bundle exec rubocop", format := some "bundle exec rubocop -a",
      dev := some (jsOr (detection.framework.bind Framework.dev) "bundle exec ruby app.rb") }
  | .dotnet =>
    { setup := some "dotnet restore", test := some "dotnet test",
      build := some "dotnet build", dev := some "dotnet run",
      format := some "dotnet format" }
  | .elixir =>
    { setup := some "mix deps.get", test := some "mix test",
      lint := some "mix credo", format := some "mix format",
      dev := some "mix phx.server" }
  | .dart =>
    let isFlutter := detection.framework.any (fun f => f.name = "flutter")
    { setup := some (if isFlutter then "flutter pub get" else "dart pub get"),
      test := some (if isFlutter then "flutter test" else "dart test"),
      lint := some "dart analyze", format := some "dart format .",
      dev := some (if isFlutter then "flutter run" else "dart run") }
  | .swift =>
    { build := some "swift build", test := some "swift test", dev := some "swift run" }

/-- `generateCommands`: early return of the all-null record when no
stack matched, otherwise the per-stack switch followed by the `verify`
join of the truthy entries of `[lint, test, build]`. -/
def generateCommands (detection : DetectionResult) : CommandSet :=
  match detection.stackList.head? with
  | none => {}
  | some stack =>
    let c := generateCommandsSwitch detection stack.id
    let verifyParts := jsFilterBoolean [c.lint, c.test, c.build]
    if verifyParts.length > 0 then
      { c with verify := some (strIntercalate " && " verifyParts) }
    else c

end CommandGenerator

section Installer

/-! `bin/cli.js`: the manifest-driven global installer (`init`, lines
333-396 of the file loop, and `update`, lines 461-526), over a mutable
filesystem state.

Modelling notes:
* `World.files` maps a path to its content (`none` = no file);
  `World.dirs` records which directories exist. `mkdirSync` with
  `recursive` is modelled as creating the one requested directory.
* The installed manifest at `MANIFEST_FILE` is modelled as the
  structured slot `World.manifest` (its JSON serialization round-trips
  exactly); `saveInstalledManifest` writes it, `loadInstalledManifest`
  reads it.
* The successive `new Date()` clock reads within one run are modelled by
  two fixed strings: `ts` (the already-`replace`d/`slice`d backup
  timestamp) and `now` (the ISO `installedAt` timestamp).
* Terminal output is not modelled; the deprecated keys that `update`
  logs are returned in `UpdateOut.deprecated`.
-/

/-- One value of `pkg.files`: `{ version, provider? }`. -/
structure FileMeta where
  version : String
  provider : Option String := none
deriving DecidableEq, Repr

/-- The shipped package manifest (`templates/manifest.json`), restricted
to the fields `init`/`update` read (the changelog is only printed). -/
structure PkgManifest where
  version : String
  files : List (String × FileMeta)
deriving DecidableEq, Repr

/-- One value of the installed manifest's `files` map. -/
structure InstFileInfo where
  version : String
  installedAt : String
  updatedFrom : Option String := none
deriving DecidableEq, Repr

/-- The installed manifest (`~/.claude/.clauderc.json`). -/
structure InstManifest where
  version : String
  installedAt : String
  providers : Option (List String) := none
  updatedFrom : Option String := none
  files : List (String × InstFileInfo)
deriving DecidableEq, Repr

/-- Mutable filesystem state. -/
structure World where
  files : String → Option String
  dirs : String → Bool
  manifest : Option InstManifest

/-- The environment constants `TEMPLATES_DIR` and `homedir()`. -/
structure Env where
  templatesDir : String
  home : String

/-- `path.join` on two segments, for the already-normalized paths this
program builds. -/
def pjoin (a b : String) : String := a ++ "/" ++ b

/-- `CLAUDE_DIR = join(homedir(), '.claude')`. -/
def claudeDir (env : Env) : String := pjoin env.home ".claude"

/-- `CURSOR_DIR = join(homedir(), '.cursor', 'rules')`. -/
def cursorDir (env : Env) : String := pjoin (pjoin env.home ".cursor") "rules"

/-- `getSourcePath`. -/
def getSourcePath (env : Env) (fileKey : String) : String :=
  if strStartsWith fileKey "templates/" then
    pjoin (pjoin env.templatesDir "project-setup")
      (jsReplaceFirst fileKey "templates/project-setup/" "")
  else if strStartsWith fileKey "cursor/" then
    pjoin env.templatesDir fileKey
  else
    pjoin env.templatesDir fileKey

/-- `getDestPath`. -/
def getDestPath (env : Env) (fileKey : String) : String :=
  if strStartsWith fileKey "cursor/" then
    pjoin (pjoin env.home ".cursor") (jsReplaceFirst fileKey "cursor/" "")
  else
    pjoin (claudeDir env) fileKey

/-- `path.dirname` for slash-separated paths. -/
def dirname (p : String) : String :=
  match jsSplitOn p "/" with
  | [] => "."
  | [_] => "."
  | parts => strIntercalate "/" parts.dropLast

/-- `ensureDir`: `mkdirSync` when the path does not exist yet. -/
def ensureDir (d : String) (w : World) : World :=
  if w.dirs d || (w.files d).isSome then w
  else { w with dirs := fun p => if p = d then true else w.dirs p }

/-- The backup path `filePath + '.backup-' + timestamp`. -/
def backupPath (ts : String) (p : String) : String := p ++ ".backup-" ++ ts

/-- `backupFile`: rename an existing file to its backup path; returns the
backup path, or `null` when the file did not exist. -/
def backupFile (ts : String) (p : String) (w : World) : World × Option String :=
  if (w.files p).isSome then
    let bp := backupPath ts p
    ({ w with files := fun q => if q = bp then w.files p else if q = p then none else w.files q },
     some bp)
  else (w, none)

/-- `copyFile(src, dest, { backup, dryRun })`: `ensureDir(dirname(dest))`
runs unconditionally; the backup rename and the `cpSync` copy are
guarded by `!dryRun`. (`cpSync` is modelled as copying the source's
content; every caller first checks that the source exists.) -/
def copyFile (ts : String) (src dest : String) (backup dryRun : Bool) (w : World) :
    World × Option String :=
  let w1 := ensureDir (dirname dest) w
  let doBackup := backup && (w1.files dest).isSome && !dryRun
  let w2 := if doBackup then (backupFile ts dest w1).1 else w1
  let bp := if doBackup then (backupFile ts dest w1).2 else none
  let w3 :=
    if !dryRun then
      { w2 with files := fun q => if q = dest then w2.files src else w2.files q }
    else w2
  (w3, bp)

/-- The result of one `init` run: final world, the counters, and the new
manifest that was computed (and written unless `dryRun`). -/
structure InitOut where
  world : World
  created : Nat
  updated : Nat
  skipped : Nat
  planned : InstManifest

/-- Accumulator of the `init` file loop. -/
structure InitAcc where
  world : World
  created : Nat
  updated : Nat
  skipped : Nat
  entries : List (String × InstFileInfo)

/-- `fileMeta.provider || 'claude'` checked against the selected
providers. -/
def providerOk (providerIds : List String) (kv : String × FileMeta) : Bool :=
  providerIds.contains (jsOr kv.2.provider "claude")

/-- Source path of a manifest entry. -/
def srcOf (env : Env) (kv : String × FileMeta) : String := getSourcePath env kv.1

/-- Destination path of a manifest entry. -/
def destOf (env : Env) (kv : String × FileMeta) : String := getDestPath env kv.1

/-- Backup path a copy of this entry would create. -/
def bakOf (env : Env) (ts : String) (kv : String × FileMeta) : String :=
  backupPath ts (getDestPath env kv.1)

/-- `installed?.files?.[fileKey]?.version`. -/
def instVersionOf (installed : Option InstManifest) (fileKey : String) : Option String :=
  installed.bind (fun m => (m.files.lookup fileKey).map InstFileInfo.version)

/-- `!installedVersion || isNewer(fileMeta.version, installedVersion)`. -/
def needsUpdateB (installed : Option InstManifest) (kv : String × FileMeta) : Bool :=
  !(jsTruthy (instVersionOf installed kv.1)) ||
    isNewer kv.2.version ((instVersionOf installed kv.1).getD "")

/-- One iteration of the `init` file loop (lines 358-392). -/
def initStep (env : Env) (ts now : String) (installed : Option InstManifest)
    (providerIds : List String) (force dryRun : Bool)
    (acc : InitAcc) (kv : String × FileMeta) : InitAcc :=
  if !(providerOk providerIds kv) then acc
  else
    if (acc.world.files (srcOf env kv)).isNone then acc
    else
      let destExists := (acc.world.files (destOf env kv)).isSome
      let acc1 :=
        if !destExists then
          { acc with world := (copyFile ts (srcOf env kv) (destOf env kv) false dryRun acc.world).1,
                     created := acc.created + 1 }
        else if force || needsUpdateB installed kv then
          { acc with world := (copyFile ts (srcOf env kv) (destOf env kv) true dryRun acc.world).1,
                     updated := acc.updated + 1 }
        else
          { acc with skipped := acc.skipped + 1 }
      { acc1 with entries := acc1.entries ++ [(kv.1, { version := kv.2.version, installedAt := now })] }

/-- The base-directory creation at the start of `init` (not guarded by
`--dry-run`). -/
def ensureBaseDirs (env : Env) (providerIds : List String) (w0 : World) : World :=
  let w1 :=
    if providerIds.contains "claude" then
      (["agents", "skills", "commands", "templates", "hooks"].foldl
        (fun w d => ensureDir (pjoin (claudeDir env) d) w) w0)
    else w0
  if providerIds.contains "cursor" then ensureDir (cursorDir env) w1 else w1

/-- The `init` command (after provider selection), for a given shipped
manifest: create the base directories, run the file loop, and — unless
`dryRun` — write the new installed manifest. -/
def initRun (env : Env) (ts now : String) (pkg : PkgManifest)
    (providerIds : List String) (force dryRun : Bool) (w0 : World) : InitOut :=
  let installed := w0.manifest
  let w2 := ensureBaseDirs env providerIds w0
  let acc0 : InitAcc := { world := w2, created := 0, updated := 0, skipped := 0, entries := [] }
  let acc := pkg.files.foldl (initStep env ts now installed providerIds force dryRun) acc0
  let newManifest : InstManifest :=
    { version := pkg.version, installedAt := now, providers := some providerIds,
      files := acc.entries }
  let wFinal :=
    if !dryRun then { acc.world with manifest := some newManifest } else acc.world
  { world := wFinal, created := acc.created, updated := acc.updated,
    skipped := acc.skipped, planned := newManifest }

/-- The result of one `update` run. -/
structure UpdateOut where
  world : World
  added : Nat
  updatedCount : Nat
  removedCount : Nat
  deprecated : List String
  alreadyUpToDate : Bool
  planned : Option InstManifest

/-- One iteration of the `update` add-new-files loop. -/
def updAddStep (env : Env) (ts now : String) (pkg : PkgManifest) (dryRun : Bool)
    (acc : World × Nat × List (String × InstFileInfo)) (fileKey : String) :
    World × Nat × List (String × InstFileInfo) :=
  let (w, n, es) := acc
  let srcPath := getSourcePath env fileKey
  let destPath := getDestPath env fileKey
  if (w.files srcPath).isNone then acc
  else
    (((copyFile ts srcPath destPath false dryRun w).1), n + 1,
     es ++ [(fileKey,
       { version := ((pkg.files.lookup fileKey).map FileMeta.version).getD "",
         installedAt := now })])

/-- One iteration of the `update` update-changed-files loop. -/
def updUpdStep (env : Env) (ts now : String) (pkg : PkgManifest)
    (installed : InstManifest) (dryRun : Bool)
    (acc : World × Nat × List (String × InstFileInfo)) (fileKey : String) :
    World × Nat × List (String × InstFileInfo) :=
  let (w, n, es) := acc
  let srcPath := getSourcePath env fileKey
  let destPath := getDestPath env fileKey
  if (w.files srcPath).isNone then acc
  else
    (((copyFile ts srcPath destPath true dryRun w).1), n + 1,
     es ++ [(fileKey,
       { version := ((pkg.files.lookup fileKey).map FileMeta.version).getD "",
         installedAt := now,
         updatedFrom := (installed.files.lookup fileKey).map InstFileInfo.version })])

/-- The `update` command, in the case where an installed manifest exists
(otherwise the code falls back to `init`). -/
def updateRun (env : Env) (ts now : String) (pkg : PkgManifest) (dryRun : Bool)
    (installed : InstManifest) (w0 : World) : UpdateOut :=
  if !(isNewer pkg.version installed.version) then
    { world := w0, added := 0, updatedCount := 0, removedCount := 0,
      deprecated := [], alreadyUpToDate := true, planned := none }
  else
    let providerIds := installed.providers.getD ["claude"]
    let installedKeys := installed.files.map Prod.fst
    let packageKeys := (pkg.files.filter (providerOk providerIds)).map Prod.fst
    let toAdd := packageKeys.filter (fun f => !(installedKeys.contains f))
    let toRemove := installedKeys.filter (fun f => !(packageKeys.contains f))
    let toUpdate := packageKeys.filter (fun f =>
      installedKeys.contains f &&
      isNewerOpt ((pkg.files.lookup f).map FileMeta.version)
        ((installed.files.lookup f).map InstFileInfo.version))
    -- add new files
    let addAcc := toAdd.foldl (updAddStep env ts now pkg dryRun) (w0, 0, [])
    -- update changed files
    let updAcc := toUpdate.foldl (updUpdStep env ts now pkg installed dryRun) (addAcc.1, 0, [])
    -- carry unchanged files over verbatim
    let carried := packageKeys.foldl (fun (es : List (String × InstFileInfo)) fileKey =>
      if !(toAdd.contains fileKey) && !(toUpdate.contains fileKey) then
        match installed.files.lookup fileKey with
        | some info => es ++ [(fileKey, info)]
        | none => es
      else es) (addAcc.2.2 ++ updAcc.2.2)
    let newManifest : InstManifest :=
      { version := pkg.version, installedAt := now,
        updatedFrom := some installed.version, files := carried }
    let wAfter := updAcc.1
    let wFinal :=
      if !dryRun then { wAfter with manifest := some newManifest } else wAfter
    { world := wFinal, added := addAcc.2.1, updatedCount := updAcc.2.1,
      removedCount := toRemove.length, deprecated := toRemove,
      alreadyUpToDate := false, planned := some newManifest }

/-- A manifest entry is processed by the `init` loop when its provider
is selected and its source file exists. -/
def processedB (env : Env) (providerIds : List String)
    (wfiles : String → Option String) (kv : String × FileMeta) : Bool :=
  providerOk providerIds kv && (wfiles (srcOf env kv)).isSome

/-- Non-collision of the paths written for entry `a` with the paths read
for entry `b`. -/
abbrev FreshRel (env : Env) (ts : String) (a b : String × FileMeta) : Prop :=
  destOf env a ≠ srcOf env b ∧ destOf env a ≠ destOf env b ∧
  bakOf env ts a ≠ srcOf env b ∧ bakOf env ts a ≠ destOf env b

/-- An installed manifest without its timestamps: version, providers,
updated-from, and per-file versions and updated-from fields. -/
def manifestSkeleton (m : InstManifest) :
    String × Option (List String) × Option String ×
      List (String × String × Option String) :=
  (m.version, m.providers, m.updatedFrom,
   m.files.map (fun kv => (kv.1, kv.2.version, kv.2.updatedFrom)))

end Installer

section Examples

/-! Concrete inputs used by counterexamples and witnesses. -/

/-- A directory whose only monorepo marker is `package.json`, and whose
`package.json` declares `workspaces: []` (an empty array — truthy in
JS). -/
def fsEmptyWorkspaces : DFS :=
  { fexists := fun p => p == "package.json"
    readdir := .ok []
    readFile := fun p => if p == "package.json" then .ok "pkgsrc" else .error ()
    parseJSON := fun c => if c == "pkgsrc" then .ok ({ workspaces := some [] } : JObj) else .error () }

/-- A directory containing both `package.json` and `pyproject.toml`. -/
def fsNodePython : DFS :=
  { fexists := fun p => p == "package.json" || p == "pyproject.toml"
    readdir := .ok []
    readFile := fun _ => .error ()
    parseJSON := fun _ => .error () }

/-- A filesystem on which every read fails. -/
def fsAllFail : DFS :=
  { fexists := fun _ => false
    readdir := .error ()
    readFile := fun _ => .error ()
    parseJSON := fun _ => .error () }

/-- A filesystem whose files hold malformed JSON. -/
def fsBadJson : DFS :=
  { fexists := fun _ => false
    readdir := .ok []
    readFile := fun _ => .ok "not json"
    parseJSON := fun _ => .error () }

/-- A detection whose primary (only) stack is `go`. -/
def detGo : DetectionResult := { stackList := [⟨.go, "Go", ["go.mod"]⟩] }

/-- A detection with no matched stack. -/
def emptyDetection : DetectionResult := {}

/-- A concrete installer environment. -/
def env1 : Env := ⟨"/t", "/h"⟩

/-- A one-file shipped manifest at version 1.0.0. -/
def pkg1 : PkgManifest := ⟨"1.0.0", [("a.md", ⟨"1.0.0", none⟩)]⟩

/-- A fresh world: only the template source file exists. -/
def w01 : World :=
  { files := fun p => if p == "/t/a.md" then some "alpha" else none
    dirs := fun _ => false
    manifest := none }

/-- A shipped manifest at version 1.1.0 that no longer ships `c.md`. -/
def pkg7 : PkgManifest := ⟨"1.1.0", [("a.md", ⟨"1.1.0", none⟩)]⟩

/-- An installed manifest at version 1.0.0 that still lists `c.md`. -/
def inst7 : InstManifest :=
  ⟨"1.0.0", "N0", some ["claude"],  none,
   [("c.md", ⟨"1.0.0", "N0", none⟩), ("a.md", ⟨"1.0.0", "N0", none⟩)]⟩

/-- A world holding the 1.1.0 template source and the previously
installed files, including the to-be-deprecated `c.md`. -/
def w07 : World :=
  { files := fun p =>
      if p == "/t/a.md" then some "alpha"
      else if p == "/h/.claude/c.md" then some "gamma"
      else if p == "/h/.claude/a.md" then some "old"
      else none
    dirs := fun _ => false
    manifest := some inst7 }

end Examples

section Theorems

/-! Helper lemmas shared by several claim theorems. -/

/-- `jsGt` is irreflexive. -/
theorem jsGt_self (x : Option (Option Nat)) : jsGt x x = false := by
  rcases x with _ | y
  · rfl
  · rcases y with _ | a
    · rfl
    · simp [jsGt]

/-- `isNewer v v = false` for every string `v`. -/
theorem isNewer_self (v : String) : isNewer v v = false := by
  unfold isNewer isNewerL
  rw [jsGt_self, jsGt_self, jsGt_self]
  rcases h0 : jsStrictNeq ((versionComponents v).get? 0) ((versionComponents v).get? 0) <;>
  rcases h1 : jsStrictNeq ((versionComponents v).get? 1) ((versionComponents v).get? 1) <;>
    simp [h0, h1]

/-- C4 counterexample: `isNewer` does not treat a missing component as
zero — `isNewer("1.2.1", "1.2")` is `false` although
`isNewer("1.2.1", "1.2.0")` is `true`. -/
theorem isNewer_missing_component_not_zero :
    isNewer "1.2.1" "1.2" = false ∧ isNewer "1.2.1" "1.2.0" = true := by
  decide

/-- C4 (amended): `isNewer` is a three-component numeric lexicographic
compare in which ties are not newer, but a missing component is not
treated as zero: the comparison returns `false` as soon as it reaches a
missing component (JS `undefined` compares like `NaN`), so
`isNewer("1.2.1", "1.2") = false` while `isNewer("1.2.1", "1.2.0") =
true`. -/
theorem isNewer_lexicographic :
    (∀ v : String, isNewer v v = false)
    ∧ (∀ a b c d e f : Nat,
        isNewerL [some a, some b, some c] [some d, some e, some f] =
          (if a ≠ d then decide (a > d) else if b ≠ e then decide (b > e)
           else decide (c > f)))
    ∧ (∀ a b c d e : Nat,
        isNewerL [some a, some b, some c] [some d, some e] =
          (if a ≠ d then decide (a > d) else if b ≠ e then decide (b > e)
           else false))
    ∧ versionComponents "1.2.1" = [some 1, some 2, some 1]
    ∧ versionComponents "1.2" = [some 1, some 2]
    ∧ isNewer "1.2.1" "1.2" = false := by
  refine ⟨isNewer_self, ?_, ?_, by decide, by decide, by decide⟩
  · intro a b c d e f
    by_cases had : a = d
    · subst had
      by_cases hbe : b = e
      · subst hbe
        simp [isNewerL, jsStrictNeq, jsGt]
      · simp [isNewerL, jsStrictNeq, jsGt, hbe]
    · simp [isNewerL, jsStrictNeq, jsGt, had]
  · intro a b c d e
    by_cases had : a = d
    · subst had
      by_cases hbe : b = e
      · subst hbe
        simp [isNewerL, jsStrictNeq, jsGt]
      · simp [isNewerL, jsStrictNeq, jsGt, hbe]
    · simp [isNewerL, jsStrictNeq, jsGt, had]

/-- C2: the Node package manager is resolved by checking the four
lockfiles in the fixed priority order bun.lockb, pnpm-lock.yaml,
yarn.lock, package-lock.json (first found wins), and defaults to npm
when only `package.json` exists. -/
theorem detectNodePackageManager_priority (fs : DFS) :
    (detectNodePackageManager fs).map PM.name =
      (if fs.fexists "bun.lockb" then some "bun"
       else if fs.fexists "pnpm-lock.yaml" then some "pnpm"
       else if fs.fexists "yarn.lock" then some "yarn"
       else if fs.fexists "package-lock.json" then some "npm"
       else if fs.fexists "package.json" then some "npm"
       else none) := by
  cases h1 : fs.fexists "bun.lockb" <;>
  cases h2 : fs.fexists "pnpm-lock.yaml" <;>
  cases h3 : fs.fexists "yarn.lock" <;>
  cases h4 : fs.fexists "package-lock.json" <;>
  cases h5 : fs.fexists "package.json" <;>
    simp [detectNodePackageManager, nodePackageManagers, List.find?, h1, h2, h3, h4, h5]

/-- C3 counterexample: a directory whose only monorepo marker is
`package.json`, with `workspaces` declared as the empty array, is
reported as the `yarnWorkspaces` monorepo (the code tests JS truthiness
of the field, and `[]` is truthy), contradicting the claim that an
empty `workspaces` field yields no monorepo match. -/
theorem detectMonorepo_emptyWorkspaces_matches :
    fsEmptyWorkspaces.fexists "package.json" = true
    ∧ fsEmptyWorkspaces.fexists "turbo.json" = false
    ∧ fsEmptyWorkspaces.fexists "nx.json" = false
    ∧ fsEmptyWorkspaces.fexists "lerna.json" = false
    ∧ fsEmptyWorkspaces.fexists "rush.json" = false
    ∧ fsEmptyWorkspaces.fexists "pnpm-workspace.yaml" = false
    ∧ safeParseJSON fsEmptyWorkspaces "package.json" = some { workspaces := some [] }
    ∧ (detectMonorepo fsEmptyWorkspaces).map Monorepo.name = some "yarnWorkspaces" := by
  decide

/-- C3 (amended): when `package.json` is the only monorepo marker
present, the monorepo result is `yarnWorkspaces` exactly when
`package.json` parses and declares a `workspaces` field at all (any
value, including an empty array); a missing field or unparseable
manifest yields no match. -/
theorem detectMonorepo_workspaces_truthy (fs : DFS)
    (h1 : fs.fexists "turbo.json" = false) (h2 : fs.fexists "nx.json" = false)
    (h3 : fs.fexists "lerna.json" = false) (h4 : fs.fexists "rush.json" = false)
    (h5 : fs.fexists "pnpm-workspace.yaml" = false)
    (h6 : fs.fexists "package.json" = true) :
    detectMonorepo fs =
      (match safeParseJSON fs "package.json" with
       | some pkg =>
         if pkg.workspaces.isSome then some ⟨"yarnWorkspaces", "package.json", none⟩
         else none
       | none => none) := by
  simp only [detectMonorepo, MONOREPO_TOOLS, detectMonorepoAux, h1, h2, h3, h4, h5, h6]
  cases hp : safeParseJSON fs "package.json" with
  | none => simp
  | some pkg =>
    cases hws : pkg.workspaces <;> simp [hws]

/-- Witness for `detectMonorepo_workspaces_truthy` at a concrete
filesystem. -/
theorem detectMonorepo_workspaces_truthy_witness :
    detectMonorepo fsEmptyWorkspaces = some ⟨"yarnWorkspaces", "package.json", none⟩ := by
  have h := detectMonorepo_workspaces_truthy fsEmptyWorkspaces (by decide) (by decide)
    (by decide) (by decide) (by decide) (by decide)
  rw [h]
  decide

/-- C8: `generateCommands` on a detection with no matched stack returns
the CommandSet whose eight fields are all null. -/
theorem generateCommands_no_stack_all_null (d : DetectionResult)
    (h : d.stackList = []) :
    (generateCommands d).setup = none ∧ (generateCommands d).dev = none
    ∧ (generateCommands d).test = none ∧ (generateCommands d).lint = none
    ∧ (generateCommands d).format = none ∧ (generateCommands d).typecheck = none
    ∧ (generateCommands d).build = none ∧ (generateCommands d).verify = none := by
  simp [generateCommands, h]

/-- Witness for `generateCommands_no_stack_all_null`. -/
theorem generateCommands_no_stack_all_null_witness :
    emptyDetection.stackList = []
    ∧ (generateCommands emptyDetection).verify = none :=
  ⟨rfl, (generateCommands_no_stack_all_null emptyDetection rfl).2.2.2.2.2.2.2⟩

/-- C9: an unreadable or malformed file is treated as absent — a file
read failure yields null, a directory-listing failure yields an empty
listing, a JSON parse failure yields null — and `detectStack` returns a
well-defined (empty) result even on a filesystem where every read
fails. -/
theorem detector_failure_semantics :
    (∀ (fs : DFS) (p : String), fs.readFile p = .error () → safeReadFile fs p = none)
    ∧ (∀ fs : DFS, fs.readdir = .error () → safeReadDir fs = [])
    ∧ (∀ (fs : DFS) (p c : String), fs.readFile p = .ok c →
        fs.parseJSON c = .error () → safeParseJSON fs p = none)
    ∧ (∀ jp : String → Except Unit JObj,
        detectStack { fexists := fun _ => false, readdir := .error (),
                      readFile := fun _ => .error (), parseJSON := jp } =
          { stackList := [] }) := by
  refine ⟨?_, ?_, ?_, ?_⟩
  · intro fs p h
    simp [safeReadFile, h]
  · intro fs h
    simp [safeReadDir, h]
  · intro fs p c h1 h2
    by_cases hc : c = "" <;> simp [safeParseJSON, safeReadFile, h1, h2, hc]
  · intro jp
    rfl

/-- Witness for `detector_failure_semantics` at concrete filesystems. -/
theorem detector_failure_semantics_witness :
    safeReadFile fsAllFail "package.json" = none
    ∧ safeReadDir fsAllFail = []
    ∧ safeParseJSON fsBadJson "package.json" = none
    ∧ detectStack fsAllFail = { stackList := [] } :=
  ⟨detector_failure_semantics.1 fsAllFail "package.json" rfl,
   detector_failure_semantics.2.1 fsAllFail rfl,
   detector_failure_semantics.2.2.1 fsBadJson "package.json" "not json" rfl rfl,
   detector_failure_semantics.2.2.2 (fun _ => .error ())⟩

/-- C10: when both the node and the python stacks match (and none of
java, ruby, php does), the `packageManager` and `framework` fields are
those of the Python resolution, which runs after and overwrites the
Node resolution, while the Node tool fields (test/lint/format/
typecheck) keep the Node resolution's values. -/
theorem detectStack_node_python_overwrite (fs : DFS)
    (hnode : (STACKS.filter (stackMatched fs)).any (fun s => s.id = .node) = true)
    (hpy : (STACKS.filter (stackMatched fs)).any (fun s => s.id = .python) = true)
    (hjava : (STACKS.filter (stackMatched fs)).any (fun s => s.id = .java) = false)
    (hruby : (STACKS.filter (stackMatched fs)).any (fun s => s.id = .ruby) = false)
    (hphp : (STACKS.filter (stackMatched fs)).any (fun s => s.id = .php) = false) :
    (detectStack fs).packageManager = detectPythonPackageManager fs
    ∧ (detectStack fs).framework = detectPythonFramework fs
    ∧ (detectStack fs).testFramework = (detectNodeTools fs).test
    ∧ (detectStack fs).linter = (detectNodeTools fs).linter
    ∧ (detectStack fs).formatter = (detectNodeTools fs).formatter
    ∧ (detectStack fs).typechecker = (detectNodeTools fs).typechecker := by
  simp [detectStack, hnode, hpy, hjava, hruby, hphp]

/-- Witness for `detectStack_node_python_overwrite` at a directory
containing both `package.json` and `pyproject.toml`. -/
theorem detectStack_node_python_overwrite_witness :
    (detectStack fsNodePython).packageManager = detectPythonPackageManager fsNodePython
    ∧ (detectStack fsNodePython).framework = detectPythonFramework fsNodePython
    ∧ (detectStack fsNodePython).testFramework = (detectNodeTools fsNodePython).test
    ∧ (detectStack fsNodePython).linter = (detectNodeTools fsNodePython).linter
    ∧ (detectStack fsNodePython).formatter = (detectNodeTools fsNodePython).formatter
    ∧ (detectStack fsNodePython).typechecker = (detectNodeTools fsNodePython).typechecker :=
  detectStack_node_python_overwrite fsNodePython (by decide) (by decide) (by decide)
    (by decide) (by decide)

/-- Appending a non-empty string yields a non-empty string. -/
theorem str_append_ne_empty (a b : String) (h : b ≠ "") : a ++ b ≠ "" := by
  intro hc
  apply h
  have hd : a.data ++ b.data = ([] : List Char) := congrArg String.data hc
  have hb : b.data = [] := (List.append_eq_nil.mp hd).2
  cases b with
  | mk dataB =>
    simp only at hb
    subst hb
    rfl

/-- `filter(Boolean)` agrees with dropping `null`s when no entry is the
empty string. -/
theorem jsFilterBoolean_eq_filterMap (l : List (Option String))
    (h : ∀ s : String, some s ∈ l → s ≠ "") :
    jsFilterBoolean l = l.filterMap id := by
  induction l with
  | nil => rfl
  | cons x xs ih =>
    have hxs : ∀ s : String, some s ∈ xs → s ≠ "" :=
      fun s hs => h s (List.mem_cons_of_mem _ hs)
    cases x with
    | none =>
      simp only [jsFilterBoolean, List.filterMap_cons] at *
      exact ih hxs
    | some s =>
      have hs : s ≠ "" := h s (List.mem_cons_self _ _)
      simp only [jsFilterBoolean, List.filterMap_cons, if_neg hs, id_eq]
      exact congrArg (List.cons s) (ih hxs)

/-- The switch body of `generateCommands` never sets `verify`, and every
`lint`/`test`/`build` command it produces is a non-empty string. -/
theorem generateCommandsSwitch_fields (d : DetectionResult) (id : StackId) :
    (generateCommandsSwitch d id).verify = none
    ∧ (∀ s : String, some s ∈ [(generateCommandsSwitch d id).lint,
        (generateCommandsSwitch d id).test, (generateCommandsSwitch d id).build] →
        s ≠ "") := by
  cases id <;> refine ⟨rfl, ?_⟩ <;> intro s hs <;>
    simp only [generateCommandsSwitch, List.mem_cons, List.mem_singleton,
      List.not_mem_nil, or_false, Option.some.injEq, reduceCtorEq, false_or] at hs <;>
    first
    | (rcases hs with h | h | h <;> subst h <;>
        first
        | (apply str_append_ne_empty; decide)
        | decide
        | (split <;> decide))
    | (rcases hs with h | h <;> subst h <;>
        first
        | (apply str_append_ne_empty; decide)
        | decide
        | (split <;> decide))

/-- Projections of `generateCommands` when a stack matched. -/
theorem generateCommands_fields (d : DetectionResult) (sd : StackDef)
    (hh : d.stackList.head? = some sd) :
    (generateCommands d).lint = (generateCommandsSwitch d sd.id).lint
    ∧ (generateCommands d).test = (generateCommandsSwitch d sd.id).test
    ∧ (generateCommands d).build = (generateCommandsSwitch d sd.id).build
    ∧ (generateCommands d).verify =
        (if (jsFilterBoolean [(generateCommandsSwitch d sd.id).lint,
              (generateCommandsSwitch d sd.id).test,
              (generateCommandsSwitch d sd.id).build]).length > 0
         then some (strIntercalate " && "
              (jsFilterBoolean [(generateCommandsSwitch d sd.id).lint,
                (generateCommandsSwitch d sd.id).test,
                (generateCommandsSwitch d sd.id).build]))
         else (generateCommandsSwitch d sd.id).verify) := by
  simp only [generateCommands, hh]
  split <;> simp_all

/-- C1: `verify` is the `&&`-join of whichever of lint, test, build are
non-null, in that fixed order (null when all three are); on a detection
whose primary stack is go it is exactly
`golangci-lint run && go test ./... && go build ./...`. -/
theorem generateCommands_verify_join (d : DetectionResult) :
    ((generateCommands d).verify =
      (if ([(generateCommands d).lint, (generateCommands d).test,
            (generateCommands d).build].filterMap id) = [] then none
       else some (strIntercalate " && "
          ([(generateCommands d).lint, (generateCommands d).test,
            (generateCommands d).build].filterMap id))))
    ∧ (∀ sd : StackDef, d.stackList.head? = some sd → sd.id = StackId.go →
        (generateCommands d).verify =
          some "golangci-lint run && go test ./... && go build ./...") := by
  constructor
  · cases hh : d.stackList.head? with
    | none => simp [generateCommands, hh]
    | some sd =>
      obtain ⟨hl, ht, hb, hv⟩ := generateCommands_fields d sd hh
      obtain ⟨hvnone, hne⟩ := generateCommandsSwitch_fields d sd.id
      rw [hl, ht, hb, hv, hvnone, jsFilterBoolean_eq_filterMap _ hne]
      rcases hE : [(generateCommandsSwitch d sd.id).lint,
          (generateCommandsSwitch d sd.id).test,
          (generateCommandsSwitch d sd.id).build].filterMap id with _ | ⟨x, xs⟩
      · simp
      · simp
  · intro sd hsd hid
    obtain ⟨hl, ht, hb, hv⟩ := generateCommands_fields d sd hsd
    rw [hv, hid]
    simp only [generateCommandsSwitch, jsFilterBoolean, List.filterMap]
    decide

/-- Witness for `generateCommands_verify_join` on a concrete go-stack
detection. -/
theorem generateCommands_verify_join_witness :
    detGo.stackList.head? = some ⟨.go, "Go", ["go.mod"]⟩
    ∧ (generateCommands detGo).verify =
        some "golangci-lint run && go test ./... && go build ./..." :=
  ⟨rfl, (generateCommands_verify_join detGo).2 ⟨.go, "Go", ["go.mod"]⟩ rfl rfl⟩

/-! Installer lemmas. -/

theorem ensureDir_files (d : String) (w : World) : (ensureDir d w).files = w.files := by
  unfold ensureDir
  split <;> rfl

theorem ensureDir_manifest (d : String) (w : World) :
    (ensureDir d w).manifest = w.manifest := by
  unfold ensureDir
  split <;> rfl

theorem ensureBaseDirs_files (env : Env) (pr : List String) (w : World) :
    (ensureBaseDirs env pr w).files = w.files := by
  unfold ensureBaseDirs
  split <;> split <;> simp [ensureDir_files]

theorem ensureBaseDirs_manifest (env : Env) (pr : List String) (w : World) :
    (ensureBaseDirs env pr w).manifest = w.manifest := by
  unfold ensureBaseDirs
  split <;> split <;> simp [ensureDir_manifest]

theorem backupFile_manifest (ts p : String) (w : World) :
    ((backupFile ts p w).1).manifest = w.manifest := by
  unfold backupFile
  split <;> rfl

theorem backupFile_files_other (ts p q : String) (w : World)
    (h1 : q ≠ p) (h2 : q ≠ backupPath ts p) :
    ((backupFile ts p w).1).files q = w.files q := by
  unfold backupFile
  split
  · simp [h1, h2]
  · rfl

theorem copyFile_manifest (ts src dest : String) (b dr : Bool) (w : World) :
    ((copyFile ts src dest b dr w).1).manifest = w.manifest := by
  unfold copyFile
  dsimp only
  split_ifs <;> simp_all [backupFile_manifest, ensureDir_manifest]

theorem copyFile_dry_files (ts src dest : String) (b : Bool) (w : World) :
    ((copyFile ts src dest b true w).1).files = w.files := by
  unfold copyFile
  dsimp only
  split_ifs <;> simp_all [ensureDir_files]

theorem copyFile_files_other (ts src dest q : String) (b dr : Bool) (w : World)
    (h1 : q ≠ dest) (h2 : q ≠ backupPath ts dest) :
    ((copyFile ts src dest b dr w).1).files q = w.files q := by
  unfold copyFile
  dsimp only
  split_ifs <;>
    simp_all [h1, h2, backupFile_files_other, ensureDir_files]

theorem copyFile_files_dest (ts src dest : String) (b : Bool) (w : World)
    (h1 : src ≠ dest) (h2 : src ≠ backupPath ts dest) :
    ((copyFile ts src dest b false w).1).files dest = w.files src := by
  unfold copyFile
  dsimp only
  split_ifs <;>
    simp_all [backupFile_files_other, ensureDir_files]

theorem initStep_manifest (env : Env) (ts now : String) (inst : Option InstManifest)
    (pr : List String) (force dr : Bool) (acc : InitAcc) (kv : String × FileMeta) :
    (initStep env ts now inst pr force dr acc kv).world.manifest = acc.world.manifest := by
  unfold initStep
  dsimp only
  split_ifs <;> simp [copyFile_manifest]

theorem initStep_dry_files (env : Env) (ts now : String) (inst : Option InstManifest)
    (pr : List String) (force : Bool) (acc : InitAcc) (kv : String × FileMeta) :
    (initStep env ts now inst pr force true acc kv).world.files = acc.world.files := by
  unfold initStep
  dsimp only
  split_ifs <;> simp [copyFile_dry_files]

theorem initStep_files_other (env : Env) (ts now : String) (inst : Option InstManifest)
    (pr : List String) (force dr : Bool) (acc : InitAcc) (kv : String × FileMeta)
    (p : String) (h1 : p ≠ destOf env kv) (h2 : p ≠ bakOf env ts kv) :
    (initStep env ts now inst pr force dr acc kv).world.files p = acc.world.files p := by
  unfold initStep
  dsimp only
  split_ifs <;>
    simp [copyFile_files_other ts (srcOf env kv) (destOf env kv) p _ dr acc.world h1 h2]

theorem initLoop_dry_world (env : Env) (ts now : String) (inst : Option InstManifest)
    (pr : List String) (force : Bool) (l : List (String × FileMeta)) (acc : InitAcc) :
    ((l.foldl (initStep env ts now inst pr force true) acc).world.files = acc.world.files)
    ∧ ((l.foldl (initStep env ts now inst pr force true) acc).world.manifest =
        acc.world.manifest) := by
  induction l generalizing acc with
  | nil => exact ⟨rfl, rfl⟩
  | cons kv rest ih =>
    simp only [List.foldl_cons]
    obtain ⟨hf, hm⟩ := ih (initStep env ts now inst pr force true acc kv)
    exact ⟨hf.trans (initStep_dry_files env ts now inst pr force acc kv),
      hm.trans (initStep_manifest env ts now inst pr force true acc kv)⟩

/-- One `init` step produces the same counters and manifest entries
whichever of two worlds it runs against, provided the two worlds agree
on the entry's source and destination paths. In particular the dry run
(right) plans exactly like a real run (left). -/
theorem initStep_stats_congr (env : Env) (ts now : String) (inst : Option InstManifest)
    (pr : List String) (force : Bool) (accR accD : InitAcc) (kv : String × FileMeta)
    (h1 : accR.world.files (srcOf env kv) = accD.world.files (srcOf env kv))
    (h2 : accR.world.files (destOf env kv) = accD.world.files (destOf env kv))
    (hc : accR.created = accD.created) (hu : accR.updated = accD.updated)
    (hs : accR.skipped = accD.skipped) (he : accR.entries = accD.entries) :
    ((initStep env ts now inst pr force false accR kv).created =
      (initStep env ts now inst pr force true accD kv).created)
    ∧ ((initStep env ts now inst pr force false accR kv).updated =
      (initStep env ts now inst pr force true accD kv).updated)
    ∧ ((initStep env ts now inst pr force false accR kv).skipped =
      (initStep env ts now inst pr force true accD kv).skipped)
    ∧ ((initStep env ts now inst pr force false accR kv).entries =
      (initStep env ts now inst pr force true accD kv).entries) := by
  unfold initStep
  dsimp only
  rw [h1, h2, hc, hu, hs, he]
  split_ifs <;> refine ⟨?_, ?_, ?_, ?_⟩ <;>
    first
    | rfl
    | exact hc
    | exact hu
    | exact hs
    | exact he

/-- The real-run and dry-run `init` loops compute identical counters and
manifest entries when no written path collides with a later entry's
source or destination path. -/
theorem initLoop_sim (env : Env) (ts now : String) (inst : Option InstManifest)
    (pr : List String) (force : Bool) (w0files : String → Option String) :
    ∀ (l : List (String × FileMeta)) (accR accD : InitAcc),
      l.Pairwise (FreshRel env ts) →
      accR.created = accD.created → accR.updated = accD.updated →
      accR.skipped = accD.skipped → accR.entries = accD.entries →
      accD.world.files = w0files →
      (∀ kv ∈ l, accR.world.files (srcOf env kv) = w0files (srcOf env kv)
         ∧ accR.world.files (destOf env kv) = w0files (destOf env kv)) →
      ((l.foldl (initStep env ts now inst pr force false) accR).created =
        (l.foldl (initStep env ts now inst pr force true) accD).created)
      ∧ ((l.foldl (initStep env ts now inst pr force false) accR).updated =
        (l.foldl (initStep env ts now inst pr force true) accD).updated)
      ∧ ((l.foldl (initStep env ts now inst pr force false) accR).skipped =
        (l.foldl (initStep env ts now inst pr force true) accD).skipped)
      ∧ ((l.foldl (initStep env ts now inst pr force false) accR).entries =
        (l.foldl (initStep env ts now inst pr force true) accD).entries) := by
  intro l
  induction l with
  | nil =>
    intro accR accD _ hc hu hs he _ _
    exact ⟨hc, hu, hs, he⟩
  | cons kv rest ih =>
    intro accR accD hfresh hc hu hs he hD hR
    rw [List.pairwise_cons] at hfresh
    obtain ⟨hhead, htail⟩ := hfresh
    have hkv := hR kv (List.mem_cons_self _ _)
    have h1 : accR.world.files (srcOf env kv) = accD.world.files (srcOf env kv) := by
      rw [hkv.1, hD]
    have h2 : accR.world.files (destOf env kv) = accD.world.files (destOf env kv) := by
      rw [hkv.2, hD]
    obtain ⟨sc, su, ss, se⟩ :=
      initStep_stats_congr env ts now inst pr force accR accD kv h1 h2 hc hu hs he
    simp only [List.foldl_cons]
    apply ih _ _ htail sc su ss se
    · rw [initStep_dry_files, hD]
    · intro kv' hm'
      have hf := hhead kv' hm'
      constructor
      · rw [initStep_files_other env ts now inst pr force false accR kv (srcOf env kv')
          (Ne.symm hf.1) (Ne.symm hf.2.2.1)]
        exact (hR kv' (List.mem_cons_of_mem _ hm')).1
      · rw [initStep_files_other env ts now inst pr force false accR kv (destOf env kv')
          (Ne.symm hf.2.1) (Ne.symm hf.2.2.2)]
        exact (hR kv' (List.mem_cons_of_mem _ hm')).2

/-- C5 counterexample: under `--dry-run` the installer still mutates the
filesystem — the base directory `~/.claude/agents` did not exist before
the run and exists after it (`ensureDir` is not short-circuited). -/
theorem initRun_dryRun_creates_directory :
    (initRun env1 "T" "N" pkg1 ["claude"] false true w01).world.dirs "/h/.claude/agents" = true
    ∧ w01.dirs "/h/.claude/agents" = false := by
  decide

/-- C5 (amended): under `--dry-run` the installer performs no file
mutation — file contents and the installed manifest are unchanged — and
(when the manifest's written paths do not collide with later entries'
read paths) it computes exactly the created/updated/skipped counts and
planned manifest of a real run; missing directories however are still
created. -/
theorem initRun_dryRun_plan (env : Env) (ts now : String) (pkg : PkgManifest)
    (pr : List String) (force : Bool) (w0 : World) :
    ((∀ p, (initRun env ts now pkg pr force true w0).world.files p = w0.files p)
      ∧ (initRun env ts now pkg pr force true w0).world.manifest = w0.manifest)
    ∧ (pkg.files.Pairwise (FreshRel env ts) →
        ((initRun env ts now pkg pr force true w0).created =
          (initRun env ts now pkg pr force false w0).created)
        ∧ ((initRun env ts now pkg pr force true w0).updated =
          (initRun env ts now pkg pr force false w0).updated)
        ∧ ((initRun env ts now pkg pr force true w0).skipped =
          (initRun env ts now pkg pr force false w0).skipped)
        ∧ ((initRun env ts now pkg pr force true w0).planned =
          (initRun env ts now pkg pr force false w0).planned)) := by
  have hdryW : (initRun env ts now pkg pr force true w0).world =
      (pkg.files.foldl (initStep env ts now w0.manifest pr force true)
        ⟨ensureBaseDirs env pr w0, 0, 0, 0, []⟩).world := rfl
  have hloop := initLoop_dry_world env ts now w0.manifest pr force pkg.files
    ⟨ensureBaseDirs env pr w0, 0, 0, 0, []⟩
  constructor
  · constructor
    · intro p
      rw [hdryW, hloop.1]
      show (ensureBaseDirs env pr w0).files p = w0.files p
      rw [ensureBaseDirs_files]
    · rw [hdryW, hloop.2]
      show (ensureBaseDirs env pr w0).manifest = w0.manifest
      rw [ensureBaseDirs_manifest]
  · intro hfresh
    have hsim := initLoop_sim env ts now w0.manifest pr force
      (ensureBaseDirs env pr w0).files pkg.files
      ⟨ensureBaseDirs env pr w0, 0, 0, 0, []⟩
      ⟨ensureBaseDirs env pr w0, 0, 0, 0, []⟩
      hfresh rfl rfl rfl rfl rfl (fun kv _ => ⟨rfl, rfl⟩)
    refine ⟨hsim.1.symm, hsim.2.1.symm, hsim.2.2.1.symm, ?_⟩
    show InstManifest.mk pkg.version now (some pr) none
        ((pkg.files.foldl (initStep env ts now w0.manifest pr force true)
          ⟨ensureBaseDirs env pr w0, 0, 0, 0, []⟩).entries) =
      InstManifest.mk pkg.version now (some pr) none
        ((pkg.files.foldl (initStep env ts now w0.manifest pr force false)
          ⟨ensureBaseDirs env pr w0, 0, 0, 0, []⟩).entries)
    rw [hsim.2.2.2]

/-- Witness for `initRun_dryRun_plan` on a concrete one-file manifest. -/
theorem initRun_dryRun_plan_witness :
    (initRun env1 "T" "N" pkg1 ["claude"] false true w01).world.files "/h/.claude/a.md" =
      w01.files "/h/.claude/a.md"
    ∧ (initRun env1 "T" "N" pkg1 ["claude"] false true w01).world.manifest = w01.manifest
    ∧ (initRun env1 "T" "N" pkg1 ["claude"] false true w01).created =
        (initRun env1 "T" "N" pkg1 ["claude"] false false w01).created
    ∧ (initRun env1 "T" "N" pkg1 ["claude"] false true w01).updated =
        (initRun env1 "T" "N" pkg1 ["claude"] false false w01).updated
    ∧ (initRun env1 "T" "N" pkg1 ["claude"] false true w01).skipped =
        (initRun env1 "T" "N" pkg1 ["claude"] false false w01).skipped
    ∧ (initRun env1 "T" "N" pkg1 ["claude"] false true w01).planned =
        (initRun env1 "T" "N" pkg1 ["claude"] false false w01).planned :=
  ⟨(initRun_dryRun_plan env1 "T" "N" pkg1 ["claude"] false w01).1.1 "/h/.claude/a.md",
   (initRun_dryRun_plan env1 "T" "N" pkg1 ["claude"] false w01).1.2,
   ((initRun_dryRun_plan env1 "T" "N" pkg1 ["claude"] false w01).2 (by decide)).1,
   ((initRun_dryRun_plan env1 "T" "N" pkg1 ["claude"] false w01).2 (by decide)).2.1,
   ((initRun_dryRun_plan env1 "T" "N" pkg1 ["claude"] false w01).2 (by decide)).2.2.1,
   ((initRun_dryRun_plan env1 "T" "N" pkg1 ["claude"] false w01).2 (by decide)).2.2.2⟩

/-- A step whose entry is filtered out (wrong provider or missing
source) leaves the accumulator untouched. -/
theorem initStep_not_processed (env : Env) (ts now : String) (inst : Option InstManifest)
    (pr : List String) (force dr : Bool) (acc : InitAcc) (kv : String × FileMeta)
    (h : processedB env pr acc.world.files kv = false) :
    initStep env ts now inst pr force dr acc kv = acc := by
  unfold processedB at h
  unfold initStep
  cases hp : providerOk pr kv with
  | false => simp [hp]
  | true =>
    have hsrc : (acc.world.files (srcOf env kv)).isNone = true := by
      cases hme : acc.world.files (srcOf env kv) <;> simp_all
    simp [hp, hsrc]

/-- A processed step appends its manifest entry, leaves a file at the
destination, and advances exactly one of the three counters. -/
theorem initStep_processed (env : Env) (ts now : String) (inst : Option InstManifest)
    (pr : List String) (force : Bool) (acc : InitAcc) (kv : String × FileMeta)
    (hp : processedB env pr acc.world.files kv = true)
    (hsd : srcOf env kv ≠ destOf env kv) (hsb : srcOf env kv ≠ bakOf env ts kv) :
    (initStep env ts now inst pr force false acc kv).entries =
        acc.entries ++ [(kv.1, ⟨kv.2.version, now, none⟩)]
    ∧ ((initStep env ts now inst pr force false acc kv).world.files
        (destOf env kv)).isSome = true
    ∧ (initStep env ts now inst pr force false acc kv).created +
        (initStep env ts now inst pr force false acc kv).updated +
        (initStep env ts now inst pr force false acc kv).skipped =
        acc.created + acc.updated + acc.skipped + 1 := by
  obtain ⟨hprov, hsrc⟩ : providerOk pr kv = true ∧
      (acc.world.files (srcOf env kv)).isSome = true := by
    simpa [processedB, Bool.and_eq_true] using hp
  have hnn : (acc.world.files (srcOf env kv)).isNone = false := by
    cases hme : acc.world.files (srcOf env kv) <;> simp_all
  unfold initStep
  dsimp only
  rw [hprov, hnn]
  simp only [Bool.not_true, Bool.false_eq_true, if_false]
  split_ifs with hdest hupd
  · refine ⟨rfl, ?_, by dsimp only; omega⟩
    dsimp only
    rw [copyFile_files_dest ts (srcOf env kv) (destOf env kv) false acc.world hsd hsb]
    exact hsrc
  · refine ⟨rfl, ?_, by dsimp only; omega⟩
    dsimp only
    rw [copyFile_files_dest ts (srcOf env kv) (destOf env kv) true acc.world hsd hsb]
    exact hsrc
  · refine ⟨rfl, ?_, by dsimp only; omega⟩
    dsimp only
    cases hme : acc.world.files (destOf env kv) <;> simp_all

/-- A processed step that finds the destination present and no version
change (and no `--force`) only increments `skipped`. -/
theorem initStep_skip (env : Env) (ts now : String) (inst : Option InstManifest)
    (pr : List String) (acc : InitAcc) (kv : String × FileMeta)
    (hp : processedB env pr acc.world.files kv = true)
    (hdest : (acc.world.files (destOf env kv)).isSome = true)
    (hnu : needsUpdateB inst kv = false) :
    initStep env ts now inst pr false false acc kv =
      { acc with skipped := acc.skipped + 1,
                 entries := acc.entries ++ [(kv.1, ⟨kv.2.version, now, none⟩)] } := by
  obtain ⟨hprov, hsrc⟩ : providerOk pr kv = true ∧
      (acc.world.files (srcOf env kv)).isSome = true := by
    simpa [processedB, Bool.and_eq_true] using hp
  have hnn : (acc.world.files (srcOf env kv)).isNone = false := by
    cases hme : acc.world.files (srcOf env kv) <;> simp_all
  unfold initStep
  dsimp only
  rw [hprov, hnn, hdest, hnu]
  simp

/-- `processedB` only reads the source path. -/
theorem processedB_congr (env : Env) (pr : List String)
    (f g : String → Option String) (kv : String × FileMeta)
    (h : f (srcOf env kv) = g (srcOf env kv)) :
    processedB env pr f kv = processedB env pr g kv := by
  unfold processedB
  rw [h]

/-- Characterization of a real (non-dry) `init` loop: files outside the
written paths are untouched, the manifest slot is untouched, the entries
are exactly the processed entries in order, every processed entry leaves
a file at its destination, and the counters sum to the number of
processed entries. -/
theorem initLoop_post (env : Env) (ts now : String) (inst : Option InstManifest)
    (pr : List String) (force : Bool) :
    ∀ (l : List (String × FileMeta)) (acc : InitAcc),
      (∀ a ∈ l, ∀ b ∈ l, destOf env a ≠ srcOf env b ∧ bakOf env ts a ≠ srcOf env b ∧
          bakOf env ts a ≠ destOf env b) →
      l.Pairwise (fun a b => destOf env a ≠ destOf env b) →
      (∀ p, (∀ a ∈ l, p ≠ destOf env a ∧ p ≠ bakOf env ts a) →
          (l.foldl (initStep env ts now inst pr force false) acc).world.files p =
            acc.world.files p)
      ∧ (l.foldl (initStep env ts now inst pr force false) acc).world.manifest =
          acc.world.manifest
      ∧ (l.foldl (initStep env ts now inst pr force false) acc).entries =
          acc.entries ++ (l.filter (processedB env pr acc.world.files)).map
            (fun kv => (kv.1, ⟨kv.2.version, now, none⟩))
      ∧ (∀ kv ∈ l, processedB env pr acc.world.files kv = true →
          ((l.foldl (initStep env ts now inst pr force false) acc).world.files
            (destOf env kv)).isSome = true)
      ∧ (l.foldl (initStep env ts now inst pr force false) acc).created +
          (l.foldl (initStep env ts now inst pr force false) acc).updated +
          (l.foldl (initStep env ts now inst pr force false) acc).skipped =
          acc.created + acc.updated + acc.skipped +
          (l.filter (processedB env pr acc.world.files)).length := by
  intro l
  induction l with
  | nil =>
    intro acc _ _
    exact ⟨fun p _ => rfl, rfl, by simp, fun kv hm => absurd hm (List.not_mem_nil _), by simp⟩
  | cons kv rest ih =>
    intro acc hall hpair
    have hkvl : kv ∈ kv :: rest := List.mem_cons_self _ _
    have hallr : ∀ a ∈ rest, ∀ b ∈ rest,
        destOf env a ≠ srcOf env b ∧ bakOf env ts a ≠ srcOf env b ∧
        bakOf env ts a ≠ destOf env b :=
      fun a ha b hb =>
        hall a (List.mem_cons_of_mem _ ha) b (List.mem_cons_of_mem _ hb)
    obtain ⟨hheadpair, hpr⟩ := List.pairwise_cons.mp hpair
    have hsrcpres : ∀ b ∈ rest,
        (initStep env ts now inst pr force false acc kv).world.files (srcOf env b) =
          acc.world.files (srcOf env b) := by
      intro b hb
      exact initStep_files_other env ts now inst pr force false acc kv (srcOf env b)
        (Ne.symm (hall kv hkvl b (List.mem_cons_of_mem _ hb)).1)
        (Ne.symm (hall kv hkvl b (List.mem_cons_of_mem _ hb)).2.1)
    by_cases hpk : processedB env pr acc.world.files kv = true
    · obtain ⟨ih1, ih2, ih3, ih4, ih5⟩ :=
        ih (initStep env ts now inst pr force false acc kv) hallr hpr
      have hfiltereq :
          rest.filter (processedB env pr
            (initStep env ts now inst pr force false acc kv).world.files) =
          rest.filter (processedB env pr acc.world.files) := by
        apply List.filter_congr
        intro b hb
        exact processedB_congr env pr _ _ b (hsrcpres b hb)
      have hsd : srcOf env kv ≠ destOf env kv :=
        Ne.symm (hall kv hkvl kv hkvl).1
      have hsb : srcOf env kv ≠ bakOf env ts kv :=
        Ne.symm (hall kv hkvl kv hkvl).2.1
      obtain ⟨hse, hdest, hsum⟩ :=
        initStep_processed env ts now inst pr force acc kv hpk hsd hsb
      refine ⟨?_, ?_, ?_, ?_, ?_⟩
      · intro p hp
        rw [List.foldl_cons,
          ih1 p (fun a ha => hp a (List.mem_cons_of_mem _ ha)),
          initStep_files_other env ts now inst pr force false acc kv p
            (hp kv hkvl).1 (hp kv hkvl).2]
      · rw [List.foldl_cons, ih2, initStep_manifest]
      · rw [List.foldl_cons, ih3, hfiltereq, hse,
          List.filter_cons_of_pos hpk, List.map_cons, List.append_assoc]
        rfl
      · intro b hb hPb
        rcases List.mem_cons.mp hb with heq | hmem
        · subst heq
          rw [List.foldl_cons,
            ih1 (destOf env b) (fun a ha =>
              ⟨hheadpair a ha, Ne.symm (hall a (List.mem_cons_of_mem _ ha) b hkvl).2.2⟩)]
          exact hdest
        · rw [List.foldl_cons]
          exact ih4 b hmem (by
            rw [processedB_congr env pr _ _ b (hsrcpres b hmem)]
            exact hPb)
      · rw [List.foldl_cons]
        have h5 := ih5
        rw [hfiltereq] at h5
        rw [h5, List.filter_cons_of_pos hpk]
        simp only [List.length_cons]
        omega
    · have hpf : processedB env pr acc.world.files kv = false := by
        cases h : processedB env pr acc.world.files kv
        · rfl
        · exact absurd h hpk
      have hstep : initStep env ts now inst pr force false acc kv = acc :=
        initStep_not_processed env ts now inst pr force false acc kv hpf
      obtain ⟨ih1, ih2, ih3, ih4, ih5⟩ := ih acc hallr hpr
      rw [List.foldl_cons, hstep]
      refine ⟨?_, ih2, ?_, ?_, ?_⟩
      · intro p hp
        exact ih1 p (fun a ha => hp a (List.mem_cons_of_mem _ ha))
      · rw [ih3, List.filter_cons_of_neg (by simp [hpf])]
      · intro b hb hPb
        rcases List.mem_cons.mp hb with heq | hmem
        · subst heq
          exact absurd hPb (by simp [hpf])
        · exact ih4 b hmem hPb
      · rw [ih5, List.filter_cons_of_neg (by simp [hpf])]

/-- A real `init` loop in which every processed entry is up to date only
counts skips: the world is untouched and no file is created or
updated. -/
theorem initLoop_skip (env : Env) (ts now : String) (inst : Option InstManifest)
    (pr : List String) :
    ∀ (l : List (String × FileMeta)) (acc : InitAcc),
      (∀ kv ∈ l, processedB env pr acc.world.files kv = true →
          ((acc.world.files (destOf env kv)).isSome = true ∧
            needsUpdateB inst kv = false)) →
      (l.foldl (initStep env ts now inst pr false false) acc).world = acc.world
      ∧ (l.foldl (initStep env ts now inst pr false false) acc).created = acc.created
      ∧ (l.foldl (initStep env ts now inst pr false false) acc).updated = acc.updated
      ∧ (l.foldl (initStep env ts now inst pr false false) acc).skipped =
          acc.skipped + (l.filter (processedB env pr acc.world.files)).length
      ∧ (l.foldl (initStep env ts now inst pr false false) acc).entries =
          acc.entries ++ (l.filter (processedB env pr acc.world.files)).map
            (fun kv => (kv.1, ⟨kv.2.version, now, none⟩)) := by
  intro l
  induction l with
  | nil =>
    intro acc _
    exact ⟨rfl, rfl, rfl, by simp, by simp⟩
  | cons kv rest ih =>
    intro acc h
    by_cases hpk : processedB env pr acc.world.files kv = true
    · obtain ⟨hdest, hnu⟩ := h kv (List.mem_cons_self _ _) hpk
      have hstep := initStep_skip env ts now inst pr acc kv hpk hdest hnu
      rw [List.foldl_cons, hstep]
      obtain ⟨ihw, ihc, ihu, ihs, ihe⟩ := ih
        { acc with skipped := acc.skipped + 1,
                   entries := acc.entries ++ [(kv.1, ⟨kv.2.version, now, none⟩)] }
        (fun b hb hPb => h b (List.mem_cons_of_mem _ hb) hPb)
      refine ⟨ihw, ihc, ihu, ?_, ?_⟩
      · rw [ihs, List.filter_cons_of_pos hpk]
        simp only [List.length_cons]
        omega
      · rw [ihe, List.filter_cons_of_pos hpk, List.map_cons, List.append_assoc]
        rfl
    · have hpf : processedB env pr acc.world.files kv = false := by
        cases hx : processedB env pr acc.world.files kv
        · rfl
        · exact absurd hx hpk
      have hstep : initStep env ts now inst pr false false acc kv = acc :=
        initStep_not_processed env ts now inst pr false false acc kv hpf
      rw [List.foldl_cons, hstep]
      obtain ⟨ihw, ihc, ihu, ihs, ihe⟩ := ih acc
        (fun b hb hPb => h b (List.mem_cons_of_mem _ hb) hPb)
      refine ⟨ihw, ihc, ihu, ?_, ?_⟩
      · rw [ihs, List.filter_cons_of_neg (by simp [hpf])]
      · rw [ihe, List.filter_cons_of_neg (by simp [hpf])]

/-- `List.lookup` of a key-preserving map over an association list with
no duplicate keys. -/
theorem lookup_map_keys {β : Type} (f : String × FileMeta → β) :
    ∀ (l : List (String × FileMeta)), (l.map Prod.fst).Nodup →
      ∀ kv ∈ l, (l.map (fun x => (x.1, f x))).lookup kv.1 = some (f kv) := by
  intro l
  induction l with
  | nil =>
    intro _ kv hm
    cases hm
  | cons a rest ih =>
    intro hnd kv hm
    have hnd2 : (a.1 :: rest.map Prod.fst).Nodup := by
      rw [List.map_cons] at hnd
      exact hnd
    have hnd' := List.nodup_cons.mp hnd2
    rcases List.mem_cons.mp hm with heq | hmem
    · subst heq
      simp [List.lookup]
    · have hne : (kv.1 == a.1) = false := by
        apply beq_false_of_ne
        intro hcontra
        exact hnd'.1 (hcontra ▸ List.mem_map_of_mem Prod.fst hmem)
      simp only [List.map_cons, List.lookup, hne]
      exact ih hnd'.2 kv hmem

/-- Characterization of one real `init` run: the manifest it writes, the
preservation of source files, the presence of every processed
destination, and the total number of processed entries. -/
theorem initRun_spec (env : Env) (ts now : String) (pkg : PkgManifest)
    (pr : List String) (force : Bool) (w0 : World)
    (hall : ∀ a ∈ pkg.files, ∀ b ∈ pkg.files,
        destOf env a ≠ srcOf env b ∧ bakOf env ts a ≠ srcOf env b ∧
        bakOf env ts a ≠ destOf env b)
    (hpair : pkg.files.Pairwise (fun a b => destOf env a ≠ destOf env b)) :
    (initRun env ts now pkg pr force false w0).world.manifest =
        some (initRun env ts now pkg pr force false w0).planned
    ∧ (initRun env ts now pkg pr force false w0).planned =
        ⟨pkg.version, now, some pr, none,
          (pkg.files.filter (processedB env pr w0.files)).map
            (fun kv => (kv.1, ⟨kv.2.version, now, none⟩))⟩
    ∧ (∀ kv ∈ pkg.files,
        (initRun env ts now pkg pr force false w0).world.files (srcOf env kv) =
          w0.files (srcOf env kv))
    ∧ (∀ kv ∈ pkg.files, processedB env pr w0.files kv = true →
        ((initRun env ts now pkg pr force false w0).world.files
          (destOf env kv)).isSome = true)
    ∧ (initRun env ts now pkg pr force false w0).created +
        (initRun env ts now pkg pr force false w0).updated +
        (initRun env ts now pkg pr force false w0).skipped =
        (pkg.files.filter (processedB env pr w0.files)).length := by
  have hA1f : (ensureBaseDirs env pr w0).files = w0.files := ensureBaseDirs_files env pr w0
  obtain ⟨p1, p2, p3, p4, p5⟩ :=
    initLoop_post env ts now w0.manifest pr force pkg.files
      ⟨ensureBaseDirs env pr w0, 0, 0, 0, []⟩ hall hpair
  dsimp only at p1 p3 p4 p5
  rw [hA1f] at p3 p4 p5
  refine ⟨rfl, ?_, ?_, ?_, ?_⟩
  · show InstManifest.mk pkg.version now (some pr) none
        ((pkg.files.foldl (initStep env ts now w0.manifest pr force false)
          ⟨ensureBaseDirs env pr w0, 0, 0, 0, []⟩).entries) = _
    rw [p3]
    simp
  · intro kv hm
    show (pkg.files.foldl (initStep env ts now w0.manifest pr force false)
        ⟨ensureBaseDirs env pr w0, 0, 0, 0, []⟩).world.files (srcOf env kv) = _
    rw [p1 (srcOf env kv) (fun a ha =>
      ⟨Ne.symm (hall a ha kv hm).1, Ne.symm (hall a ha kv hm).2.1⟩)]
    show (ensureBaseDirs env pr w0).files (srcOf env kv) = _
    rw [hA1f]
  · intro kv hm hP
    exact p4 kv hm hP
  · have bc : (initRun env ts now pkg pr force false w0).created =
        (pkg.files.foldl (initStep env ts now w0.manifest pr force false)
          ⟨ensureBaseDirs env pr w0, 0, 0, 0, []⟩).created := rfl
    have bu : (initRun env ts now pkg pr force false w0).updated =
        (pkg.files.foldl (initStep env ts now w0.manifest pr force false)
          ⟨ensureBaseDirs env pr w0, 0, 0, 0, []⟩).updated := rfl
    have bs : (initRun env ts now pkg pr force false w0).skipped =
        (pkg.files.foldl (initStep env ts now w0.manifest pr force false)
          ⟨ensureBaseDirs env pr w0, 0, 0, 0, []⟩).skipped := rfl
    rw [bc, bu, bs]
    omega

/-- Characterization of a real `init` run in which every processed entry
is already present at its shipped version: nothing is created or
updated, the files are untouched, and the written manifest lists the
processed entries at their shipped versions. -/
theorem initRun_skip_spec (env : Env) (ts now : String) (pkg : PkgManifest)
    (pr : List String) (w0 : World)
    (h : ∀ kv ∈ pkg.files, processedB env pr w0.files kv = true →
        (w0.files (destOf env kv)).isSome = true ∧
          needsUpdateB w0.manifest kv = false) :
    (initRun env ts now pkg pr false false w0).created = 0
    ∧ (initRun env ts now pkg pr false false w0).updated = 0
    ∧ (initRun env ts now pkg pr false false w0).skipped =
        (pkg.files.filter (processedB env pr w0.files)).length
    ∧ (∀ p, (initRun env ts now pkg pr false false w0).world.files p = w0.files p)
    ∧ (initRun env ts now pkg pr false false w0).world.manifest =
        some (initRun env ts now pkg pr false false w0).planned
    ∧ (initRun env ts now pkg pr false false w0).planned =
        ⟨pkg.version, now, some pr, none,
          (pkg.files.filter (processedB env pr w0.files)).map
            (fun kv => (kv.1, ⟨kv.2.version, now, none⟩))⟩ := by
  have hA2f : (ensureBaseDirs env pr w0).files = w0.files := ensureBaseDirs_files env pr w0
  have h' : ∀ kv ∈ pkg.files,
      processedB env pr (ensureBaseDirs env pr w0).files kv = true →
      (((ensureBaseDirs env pr w0).files (destOf env kv)).isSome = true ∧
        needsUpdateB w0.manifest kv = false) := by
    rw [hA2f]
    exact h
  obtain ⟨s1, s2, s3, s4, s5⟩ :=
    initLoop_skip env ts now w0.manifest pr pkg.files
      ⟨ensureBaseDirs env pr w0, 0, 0, 0, []⟩ h'
  dsimp only at s1 s2 s3 s4 s5
  rw [hA2f] at s4 s5
  have bc : (initRun env ts now pkg pr false false w0).created =
      (pkg.files.foldl (initStep env ts now w0.manifest pr false false)
        ⟨ensureBaseDirs env pr w0, 0, 0, 0, []⟩).created := rfl
  have bu : (initRun env ts now pkg pr false false w0).updated =
      (pkg.files.foldl (initStep env ts now w0.manifest pr false false)
        ⟨ensureBaseDirs env pr w0, 0, 0, 0, []⟩).updated := rfl
  have bs : (initRun env ts now pkg pr false false w0).skipped =
      (pkg.files.foldl (initStep env ts now w0.manifest pr false false)
        ⟨ensureBaseDirs env pr w0, 0, 0, 0, []⟩).skipped := rfl
  have bw : (initRun env ts now pkg pr false false w0).world.files =
      (pkg.files.foldl (initStep env ts now w0.manifest pr false false)
        ⟨ensureBaseDirs env pr w0, 0, 0, 0, []⟩).world.files := rfl
  have bp : (initRun env ts now pkg pr false false w0).planned =
      InstManifest.mk pkg.version now (some pr) none
        ((pkg.files.foldl (initStep env ts now w0.manifest pr false false)
          ⟨ensureBaseDirs env pr w0, 0, 0, 0, []⟩).entries) := rfl
  have hwf : (pkg.files.foldl (initStep env ts now w0.manifest pr false false)
      ⟨ensureBaseDirs env pr w0, 0, 0, 0, []⟩).world.files = w0.files := by
    rw [s1]
    exact hA2f
  refine ⟨?_, ?_, ?_, ?_, rfl, ?_⟩
  · rw [bc, s2]
  · rw [bu, s3]
  · rw [bs, s4]
    omega
  · intro p
    rw [bw, hwf]
  · rw [bp, s5]
    simp

/-- C6: re-running the global installer right after a successful run,
with the shipped manifest unchanged and without `--force`, creates and
updates nothing — every processed file-key is skipped because its
installed version equals the shipped version — leaves every file
untouched, and writes an installed manifest identical to the previous
one apart from timestamps. -/
theorem initRun_idempotent (env : Env) (ts1 now1 ts2 now2 : String)
    (pkg : PkgManifest) (pr : List String) (force : Bool) (w0 : World)
    (hall : ∀ a ∈ pkg.files, ∀ b ∈ pkg.files,
        destOf env a ≠ srcOf env b ∧ bakOf env ts1 a ≠ srcOf env b ∧
        bakOf env ts1 a ≠ destOf env b)
    (hpair : pkg.files.Pairwise (fun a b => destOf env a ≠ destOf env b))
    (hnodup : (pkg.files.map Prod.fst).Nodup)
    (hver : ∀ kv ∈ pkg.files, kv.2.version ≠ "") :
    (initRun env ts2 now2 pkg pr false false
        (initRun env ts1 now1 pkg pr force false w0).world).created = 0
    ∧ (initRun env ts2 now2 pkg pr false false
        (initRun env ts1 now1 pkg pr force false w0).world).updated = 0
    ∧ (initRun env ts2 now2 pkg pr false false
        (initRun env ts1 now1 pkg pr force false w0).world).skipped =
        (initRun env ts1 now1 pkg pr force false w0).created +
        (initRun env ts1 now1 pkg pr force false w0).updated +
        (initRun env ts1 now1 pkg pr force false w0).skipped
    ∧ (∀ p, (initRun env ts2 now2 pkg pr false false
        (initRun env ts1 now1 pkg pr force false w0).world).world.files p =
        (initRun env ts1 now1 pkg pr force false w0).world.files p)
    ∧ (initRun env ts2 now2 pkg pr false false
        (initRun env ts1 now1 pkg pr force false w0).world).world.manifest =
        some (initRun env ts2 now2 pkg pr false false
          (initRun env ts1 now1 pkg pr force false w0).world).planned
    ∧ manifestSkeleton (initRun env ts2 now2 pkg pr false false
        (initRun env ts1 now1 pkg pr force false w0).world).planned =
      manifestSkeleton (initRun env ts1 now1 pkg pr force false w0).planned := by
  obtain ⟨sp1, sp2, sp3, sp4, sp5⟩ := initRun_spec env ts1 now1 pkg pr force w0 hall hpair
  have hcong : ∀ kv ∈ pkg.files,
      processedB env pr (initRun env ts1 now1 pkg pr force false w0).world.files kv =
      processedB env pr w0.files kv :=
    fun kv hm => processedB_congr env pr _ _ kv (sp3 kv hm)
  have hfiltereq :
      pkg.files.filter (processedB env pr
        (initRun env ts1 now1 pkg pr force false w0).world.files) =
      pkg.files.filter (processedB env pr w0.files) :=
    List.filter_congr hcong
  have hnd : ((pkg.files.filter (processedB env pr w0.files)).map Prod.fst).Nodup :=
    List.Nodup.sublist (List.Sublist.map Prod.fst (List.filter_sublist _)) hnodup
  have hskip : ∀ kv ∈ pkg.files,
      processedB env pr (initRun env ts1 now1 pkg pr force false w0).world.files kv = true →
      (((initRun env ts1 now1 pkg pr force false w0).world.files
          (destOf env kv)).isSome = true ∧
        needsUpdateB (initRun env ts1 now1 pkg pr force false w0).world.manifest kv =
          false) := by
    intro kv hm hP
    have hP0 : processedB env pr w0.files kv = true := by
      rw [← hcong kv hm]
      exact hP
    refine ⟨sp4 kv hm hP0, ?_⟩
    rw [sp1, sp2]
    unfold needsUpdateB instVersionOf
    have hkmem : kv ∈ pkg.files.filter (processedB env pr w0.files) :=
      List.mem_filter.mpr ⟨hm, hP0⟩
    rw [show (some (InstManifest.mk pkg.version now1 (some pr) none
        ((pkg.files.filter (processedB env pr w0.files)).map
          (fun kv => (kv.1, ⟨kv.2.version, now1, none⟩))))).bind
        (fun m => (m.files.lookup kv.1).map InstFileInfo.version) =
      (((pkg.files.filter (processedB env pr w0.files)).map
          (fun kv => (kv.1, (⟨kv.2.version, now1, none⟩ : InstFileInfo)))).lookup
        kv.1).map InstFileInfo.version from rfl]
    rw [lookup_map_keys (fun kv => (⟨kv.2.version, now1, none⟩ : InstFileInfo)) _ hnd kv hkmem]
    simp [jsTruthy, hver kv hm, isNewer_self]
  obtain ⟨sk1, sk2, sk3, sk4, sk5, sk6⟩ :=
    initRun_skip_spec env ts2 now2 pkg pr
      (initRun env ts1 now1 pkg pr force false w0).world hskip
  refine ⟨sk1, sk2, ?_, sk4, sk5, ?_⟩
  · rw [sk3, hfiltereq, sp5]
  · rw [sk6, sp2]
    unfold manifestSkeleton
    simp only [List.map_map]
    rw [hfiltereq]
    rfl

/-- Witness for `initRun_idempotent` on a concrete one-file manifest. -/
theorem initRun_idempotent_witness :
    (initRun env1 "T2" "N2" pkg1 ["claude"] false false
        (initRun env1 "T1" "N1" pkg1 ["claude"] false false w01).world).created = 0
    ∧ (initRun env1 "T2" "N2" pkg1 ["claude"] false false
        (initRun env1 "T1" "N1" pkg1 ["claude"] false false w01).world).updated = 0
    ∧ (initRun env1 "T2" "N2" pkg1 ["claude"] false false
        (initRun env1 "T1" "N1" pkg1 ["claude"] false false w01).world).skipped =
        (initRun env1 "T1" "N1" pkg1 ["claude"] false false w01).created +
        (initRun env1 "T1" "N1" pkg1 ["claude"] false false w01).updated +
        (initRun env1 "T1" "N1" pkg1 ["claude"] false false w01).skipped
    ∧ (initRun env1 "T2" "N2" pkg1 ["claude"] false false
        (initRun env1 "T1" "N1" pkg1 ["claude"] false false w01).world).world.files
        "/h/.claude/a.md" =
        (initRun env1 "T1" "N1" pkg1 ["claude"] false false w01).world.files
        "/h/.claude/a.md"
    ∧ manifestSkeleton (initRun env1 "T2" "N2" pkg1 ["claude"] false false
        (initRun env1 "T1" "N1" pkg1 ["claude"] false false w01).world).planned =
      manifestSkeleton (initRun env1 "T1" "N1" pkg1 ["claude"] false false w01).planned := by
  have h := initRun_idempotent env1 "T1" "N1" "T2" "N2" pkg1 ["claude"] false w01
    (by decide) (by decide) (by decide) (by decide)
  exact ⟨h.1, h.2.1, h.2.2.1, h.2.2.2.1 "/h/.claude/a.md", h.2.2.2.2.2⟩

/-- The add-new-files loop of `update` does not touch paths outside the
destinations and backups of its keys. -/
theorem updAddFold_files_other (env : Env) (ts now : String) (pkg : PkgManifest)
    (dr : Bool) :
    ∀ (keys : List String) (acc : World × Nat × List (String × InstFileInfo)) (p : String),
      (∀ f ∈ keys, p ≠ getDestPath env f ∧ p ≠ backupPath ts (getDestPath env f)) →
      ((keys.foldl (updAddStep env ts now pkg dr) acc).1).files p = acc.1.files p := by
  intro keys
  induction keys with
  | nil =>
    intro acc p _
    rfl
  | cons f rest ih =>
    intro acc p h
    rw [List.foldl_cons,
      ih (updAddStep env ts now pkg dr acc f) p
        (fun g hg => h g (List.mem_cons_of_mem _ hg))]
    obtain ⟨w, n, es⟩ := acc
    unfold updAddStep
    dsimp only
    split_ifs
    · rfl
    · exact copyFile_files_other ts (getSourcePath env f) (getDestPath env f) p false dr w
        (h f (List.mem_cons_self _ _)).1 (h f (List.mem_cons_self _ _)).2

/-- The update-changed-files loop of `update` does not touch paths
outside the destinations and backups of its keys. -/
theorem updUpdFold_files_other (env : Env) (ts now : String) (pkg : PkgManifest)
    (installed : InstManifest) (dr : Bool) :
    ∀ (keys : List String) (acc : World × Nat × List (String × InstFileInfo)) (p : String),
      (∀ f ∈ keys, p ≠ getDestPath env f ∧ p ≠ backupPath ts (getDestPath env f)) →
      ((keys.foldl (updUpdStep env ts now pkg installed dr) acc).1).files p =
        acc.1.files p := by
  intro keys
  induction keys with
  | nil =>
    intro acc p _
    rfl
  | cons f rest ih =>
    intro acc p h
    rw [List.foldl_cons,
      ih (updUpdStep env ts now pkg installed dr acc f) p
        (fun g hg => h g (List.mem_cons_of_mem _ hg))]
    obtain ⟨w, n, es⟩ := acc
    unfold updUpdStep
    dsimp only
    split_ifs
    · rfl
    · exact copyFile_files_other ts (getSourcePath env f) (getDestPath env f) p true dr w
        (h f (List.mem_cons_self _ _)).1 (h f (List.mem_cons_self _ _)).2

/-- C7: during an `update` that proceeds (shipped version newer than the
installed one), every file-key present in the previously-installed
manifest but absent from the shipped manifest is reported as deprecated,
and the file at its destination is left untouched — never deleted. -/
theorem updateRun_deprecated_untouched (env : Env) (ts now : String) (pkg : PkgManifest)
    (dr : Bool) (installed : InstManifest) (w0 : World) (k : String)
    (hnew : isNewer pkg.version installed.version = true)
    (hinst : k ∈ installed.files.map Prod.fst)
    (habsent : k ∉ pkg.files.map Prod.fst)
    (hfresh : ∀ kv ∈ pkg.files, getDestPath env kv.1 ≠ getDestPath env k ∧
        backupPath ts (getDestPath env kv.1) ≠ getDestPath env k) :
    k ∈ (updateRun env ts now pkg dr installed w0).deprecated
    ∧ (updateRun env ts now pkg dr installed w0).world.files (getDestPath env k) =
        w0.files (getDestPath env k)
    ∧ (updateRun env ts now pkg dr installed w0).alreadyUpToDate = false := by
  have hkeys : ∀ f ∈ (pkg.files.filter
      (providerOk (installed.providers.getD ["claude"]))).map Prod.fst,
      getDestPath env k ≠ getDestPath env f ∧
      getDestPath env k ≠ backupPath ts (getDestPath env f) := by
    intro f hf
    obtain ⟨kv, hkvf, hkve⟩ := List.mem_map.mp hf
    have := hfresh kv (List.mem_of_mem_filter hkvf)
    exact ⟨hkve ▸ Ne.symm this.1, hkve ▸ Ne.symm this.2⟩
  have hnotpkg : ¬ k ∈ (pkg.files.filter
      (providerOk (installed.providers.getD ["claude"]))).map Prod.fst := by
    intro hmem
    obtain ⟨kv, hkvf, hkve⟩ := List.mem_map.mp hmem
    exact habsent (hkve ▸ List.mem_map_of_mem Prod.fst (List.mem_of_mem_filter hkvf))
  unfold updateRun
  rw [hnew, Bool.not_true, if_neg Bool.false_ne_true]
  dsimp only
  refine ⟨?_, ?_, rfl⟩
  · apply List.mem_filter.mpr
    refine ⟨hinst, ?_⟩
    simpa using hnotpkg
  · split_ifs <;>
    · rw [updUpdFold_files_other env ts now pkg installed dr _ _ _
        (fun g hg => hkeys g (List.mem_of_mem_filter hg)),
        updAddFold_files_other env ts now pkg dr _ _ _
        (fun g hg => hkeys g (List.mem_of_mem_filter hg))]

/-- Witness for `updateRun_deprecated_untouched` on a concrete update
from 1.0.0 to 1.1.0 that drops `c.md`. -/
theorem updateRun_deprecated_untouched_witness :
    "c.md" ∈ (updateRun env1 "T" "N" pkg7 false inst7 w07).deprecated
    ∧ (updateRun env1 "T" "N" pkg7 false inst7 w07).world.files
        (getDestPath env1 "c.md") = w07.files (getDestPath env1 "c.md")
    ∧ (updateRun env1 "T" "N" pkg7 false inst7 w07).alreadyUpToDate = false :=
  updateRun_deprecated_untouched env1 "T" "N" pkg7 false inst7 w07 "c.md"
    (by decide) (by decide) (by decide) (by decide)

end Theorems

end Clauderc
